import Mathlib

/-! # AnKi render graph: a verification development

Shallow embedding of parts of the AnKi renderer (`AnKi/Gr/RenderGraph.h`,
`AnKi/Renderer/*.cpp`, `AnKi/Scene/Visibility.cpp`) together with theorems about them.

Conventions of the embedding:

* machine integers are natural numbers, reduced modulo `2^w` where the C++ arithmetic can wrap;
* a function that contains an `ANKI_ASSERT` returns an `Option`: `none` stands for the
  assertion firing (`akassert` followed by `ANKI_UNREACHABLE`), `some v` for a normal return;
* mutable objects are records and member functions are state transformers.
-/

namespace AnKi

/-! ## Integer limits -/

/-- Largest `U32`. -/
def kMaxU32 : Nat := 2 ^ 32 - 1

/-- Largest `U64`. -/
def kMaxU64 : Nat := 2 ^ 64 - 1

/-- Number of values of `PtrSize`, the 64-bit unsigned size type. -/
def ptrSizeModulus : Nat := 2 ^ 64

/-- Largest `PtrSize`; buffer ranges use it as the "whole buffer" marker. -/
def kMaxPtrSize : Nat := ptrSizeModulus - 1

/-! ## `RenderGraphDescription::bufferRangeOverlaps` -/

namespace RenderGraphDescription

/-- Embedding of the static member `bufferRangeOverlaps` (RenderGraph.h, 584-600). The sums
`offsetA + rangeA` and `offsetB + rangeB` are `PtrSize` sums and wrap at `2^64`. -/
def bufferRangeOverlaps (offsetA rangeA offsetB rangeB : Nat) : Option Bool :=
  if rangeA > 0 ∧ rangeB > 0 then
    if rangeA = kMaxPtrSize ∨ rangeB = kMaxPtrSize then
      some true
    else if offsetA ≤ offsetB then
      some (decide ((offsetA + rangeA) % ptrSizeModulus ≥ offsetB))
    else
      some (decide ((offsetB + rangeB) % ptrSizeModulus ≥ offsetA))
  else
    none

end RenderGraphDescription

/-! ## Handles (RenderGraph.h, 38-83) -/

/-- Embedding of class `RenderGraphGrObjectHandle`; the member initialiser `m_idx = kMaxU32` is
the default value of the field. -/
structure RenderGraphGrObjectHandle where
  m_idx : Nat := kMaxU32
deriving DecidableEq, Repr

/-- Embedding of `RenderGraphGrObjectHandle::isValid`. -/
def RenderGraphGrObjectHandle.isValid (h : RenderGraphGrObjectHandle) : Bool :=
  h.m_idx != kMaxU32

/-- Embedding of class `RenderTargetHandle`, which adds nothing to its base. -/
structure RenderTargetHandle extends RenderGraphGrObjectHandle
deriving DecidableEq, Repr

/-- Embedding of class `BufferHandle`, which adds nothing to its base. -/
structure BufferHandle extends RenderGraphGrObjectHandle
deriving DecidableEq, Repr

/-- Embedding of class `AccelerationStructureHandle`, which adds nothing to its base. -/
structure AccelerationStructureHandle extends RenderGraphGrObjectHandle
deriving DecidableEq, Repr

/-! ## `RenderPassDependency` (RenderGraph.h, 231-309) -/

/-- A usage bit mask: `TextureUsageBit`, `BufferUsageBit` or `AccelerationStructureUsageBit`. -/
abbrev UsageBits := Nat

/-- The value `DepthStencilAspectBit::kNone`. -/
def DepthStencilAspectBit.kNone : Nat := 0

/-- The two members of `TextureSubresourceInfo` that `RenderPassDependency` assigns, and the
remaining members (`m_rest`, of a type `R` left open) which it copies untouched. -/
structure TextureSubresourceInfo (R : Type) where
  m_mipmapCount : Nat
  m_depthStencilAspect : Nat
  m_rest : R
deriving DecidableEq, Repr

/-- Embedding of `RenderPassDependency::TextureInfo`. -/
structure RenderPassDependency.TextureInfo (R : Type) where
  m_handle : RenderTargetHandle
  m_usage : UsageBits
  m_subresource : TextureSubresourceInfo R
deriving DecidableEq, Repr

/-- Embedding of `RenderPassDependency::BufferInfo`. -/
structure RenderPassDependency.BufferInfo where
  m_handle : BufferHandle
  m_usage : UsageBits
deriving DecidableEq, Repr

/-- Embedding of `RenderPassDependency::ASInfo`. -/
structure RenderPassDependency.ASInfo where
  m_handle : AccelerationStructureHandle
  m_usage : UsageBits
deriving DecidableEq, Repr

/-- Embedding of class `RenderPassDependency`: the anonymous union together with its
discriminant `m_type`; each constructor is one value of `RenderPassDependency::Type`. -/
inductive RenderPassDependency (R : Type) where
  | kBuffer (m_buffer : RenderPassDependency.BufferInfo)
  | kTexture (m_texture : RenderPassDependency.TextureInfo R)
  | kAccelerationStructure (m_as : RenderPassDependency.ASInfo)
deriving DecidableEq, Repr

namespace RenderPassDependency

/-- Embedding of the constructor "dependency to a texture subresource" (240-245). -/
def ofTextureSubresource {R : Type} (handle : RenderTargetHandle) (usage : UsageBits)
    (subresource : TextureSubresourceInfo R) : Option (RenderPassDependency R) :=
  if handle.isValid then some (kTexture ⟨handle, usage, subresource⟩) else none

/-- Embedding of the constructor "dependency to the whole texture" (248-255); `dflt` is the
default constructed `TextureSubresourceInfo()`. -/
def ofWholeTexture {R : Type} (dflt : TextureSubresourceInfo R) (handle : RenderTargetHandle)
    (usage : UsageBits) (aspect : Nat) :
    Option (RenderPassDependency R) :=
  if handle.isValid then
    some (kTexture ⟨handle, usage,
      { dflt with m_mipmapCount := kMaxU32, m_depthStencilAspect := aspect }⟩)
  else none

/-- Embedding of the buffer constructor (257-262). -/
def ofBuffer {R : Type} (handle : BufferHandle) (usage : UsageBits) :
    Option (RenderPassDependency R) :=
  if handle.isValid then some (kBuffer ⟨handle, usage⟩) else none

/-- Embedding of the acceleration structure constructor (264-269). -/
def ofAccelerationStructure {R : Type} (handle : AccelerationStructureHandle)
    (usage : UsageBits) : Option (RenderPassDependency R) :=
  if handle.isValid then some (kAccelerationStructure ⟨handle, usage⟩) else none

end RenderPassDependency

/-! ## `RenderPassDescriptionBase::setWork` (RenderGraph.h, 311-331) -/

/-- Embedding of `RenderPassDescriptionBase::Type`. -/
inductive RenderPassDescriptionBase.Type where
  | kGraphics
  | kNoGraphics
deriving DecidableEq, Repr

/-- Embedding of class `RenderPassDescriptionBase`, restricted to the members `setWork` reads or
writes. `F` is the type of work callbacks; an empty `Function` object is `none`. -/
structure RenderPassDescriptionBase (F : Type) where
  m_type : RenderPassDescriptionBase.Type
  m_callback : Option F := none
  m_secondLevelCmdbsCount : Nat := 0

namespace RenderPassDescriptionBase

/-- Embedding of the two-argument `setWork(secondLeveCmdbCount, func)` (319-325). -/
def setWork {F : Type} (p : RenderPassDescriptionBase F) (secondLeveCmdbCount : Nat) (func : F) :
    Option (RenderPassDescriptionBase F) :=
  if p.m_type = Type.kGraphics ∨ secondLeveCmdbCount = 0 then
    some { p with m_callback := some func, m_secondLevelCmdbsCount := secondLeveCmdbCount }
  else none

/-- Embedding of the one-argument `setWork(func)` (327-331). -/
def setWork1 {F : Type} (p : RenderPassDescriptionBase F) (func : F) :
    Option (RenderPassDescriptionBase F) :=
  p.setWork 0 func

end RenderPassDescriptionBase

/-! ## Importing render targets in the renderer stages

`GBuffer::importRenderTargets` (GBuffer.cpp, 167-185),
`VolumetricLightingAccumulation::populateRenderGraph` (VolumetricLightingAccumulation.cpp, 69-76),
`RtShadows::populateRenderGraph` (RtShadows.cpp, 186-216) and
`DepthDownscale::importRenderTargets` (DepthDownscale.cpp, 162-176).

The bodies of `RenderGraphDescription::importRenderTarget` are not part of these files, so a
stage is embedded as a function that returns the list of `importRenderTarget` calls it makes, in
program order, and that receives the handles those calls return from its environment. -/

/-- Identity of a texture object (the pointee of a `TexturePtr`). -/
abbrev Tex := Nat

/-- The `TextureUsageBit` masks that the embedded call sites pass to `importRenderTarget` and to
`newTextureDependency`. -/
inductive TextureUsageBit where
  | kNone
  | kSampledFragment
  | kSampledCompute
  | kImageComputeWrite
  | kSampledTraceRays
  | kImageTraceRaysWrite
deriving DecidableEq, Repr

/-- One call of `RenderGraphDescription::importRenderTarget`: `usage = none` is the overload
`importRenderTarget(Texture* tex)`, `usage = some u` is `importRenderTarget(Texture* tex, u)`. -/
structure ImportCall where
  tex : Tex
  usage : Option TextureUsageBit
deriving DecidableEq, Repr

/-- What a stage reads from its surroundings during one frame: `Renderer::getFrameCount()` (a
`U64`) and the handle returned by the `k`-th `importRenderTarget` call the stage makes. -/
structure FrameEnv where
  frameCount : Nat
  importedHandle : Nat → RenderTargetHandle

/-- The successor of a frame count: `++m_frameCount` on a `U64` (Renderer.cpp, 407). -/
def nextFrameCount (frameCount : Nat) : Nat := (frameCount + 1) % 2 ^ 64

/-- The C++ `!x` of an unsigned integer, used as an array index: 1 if `x` is 0, else 0. -/
def logicalNot (x : Nat) : Nat := if x = 0 then 1 else 0

/-- Embedding of class `GBuffer`: the array `m_depthRts` of two depth textures, as the function
from index to element, and the two handles of `m_runCtx`, which are default constructed. -/
structure GBuffer where
  m_depthRts : Nat → Tex
  m_crntFrameDepthRt : RenderTargetHandle := {}
  m_prevFrameDepthRt : RenderTargetHandle := {}

namespace GBuffer

/-- Index of the depth texture written in the frame: `getFrameCount() & 1`. -/
def crntDepthRtIdx (frameCount : Nat) : Nat := frameCount &&& 1

/-- Index of the depth texture read as the previous frame's: `(getFrameCount() + 1) & 1`, the sum
being a `U64` sum. -/
def prevDepthRtIdx (frameCount : Nat) : Nat := ((frameCount + 1) % 2 ^ 64) &&& 1

/-- Embedding of `GBuffer::importRenderTargets`. -/
def importRenderTargets (self : GBuffer) (env : FrameEnv) : GBuffer × List ImportCall :=
  if self.m_crntFrameDepthRt.isValid then
    ({ self with m_crntFrameDepthRt := env.importedHandle 0,
                 m_prevFrameDepthRt := env.importedHandle 1 },
     [⟨self.m_depthRts (crntDepthRtIdx env.frameCount), some .kNone⟩,
      ⟨self.m_depthRts (prevDepthRtIdx env.frameCount), none⟩])
  else
    ({ self with m_crntFrameDepthRt := env.importedHandle 0,
                 m_prevFrameDepthRt := env.importedHandle 1 },
     [⟨self.m_depthRts (crntDepthRtIdx env.frameCount), some .kNone⟩,
      ⟨self.m_depthRts (prevDepthRtIdx env.frameCount), some .kSampledFragment⟩])

end GBuffer

/-- Embedding of class `VolumetricLightingAccumulation`: the array `m_rtTextures` of two
textures, as the function from index to element, and the two handles `m_runCtx.m_rts[0]` and
`m_runCtx.m_rts[1]`. -/
structure VolumetricLightingAccumulation where
  m_rtTextures : Nat → Tex
  m_runCtxRts0 : RenderTargetHandle := {}
  m_runCtxRts1 : RenderTargetHandle := {}

namespace VolumetricLightingAccumulation

/-- The local `readRtIdx = getFrameCount() & 1`. -/
def readRtIdx (frameCount : Nat) : Nat := frameCount &&& 1

/-- The index `!readRtIdx` of the texture imported for writing. -/
def writeRtIdx (frameCount : Nat) : Nat := logicalNot (readRtIdx frameCount)

/-- The two imports at the head of `VolumetricLightingAccumulation::populateRenderGraph` (75-76):
the handle of the first goes to `m_runCtx.m_rts[0]`, the handle of the second to
`m_runCtx.m_rts[1]`. -/
def populateRenderGraphImports (self : VolumetricLightingAccumulation) (env : FrameEnv) :
    VolumetricLightingAccumulation × List ImportCall :=
  ({ self with m_runCtxRts0 := env.importedHandle 0,
               m_runCtxRts1 := env.importedHandle 1 },
   [⟨self.m_rtTextures (readRtIdx env.frameCount), some .kSampledFragment⟩,
    ⟨self.m_rtTextures (writeRtIdx env.frameCount), some .kNone⟩])

/-- The dependencies that the pass "Vol light" declares on the two imported targets in
`VolumetricLightingAccumulation::populateRenderGraph` (84-85): `m_rts[0]` is sampled, `m_rts[1]`
is written as an image. -/
def textureDependencies (self : VolumetricLightingAccumulation) :
    List (RenderTargetHandle × TextureUsageBit) :=
  [(self.m_runCtxRts0, .kSampledCompute), (self.m_runCtxRts1, .kImageComputeWrite)]

end VolumetricLightingAccumulation

/-- Embedding of class `RtShadows`: the textures it imports, the flag `m_rtsImportedOnce`
(RtShadows.h, 85: initialised to `false`) and the imported handles of `m_runCtx`. -/
structure RtShadows where
  m_historyRt : Tex
  m_momentsRts : Nat → Tex
  m_rtsImportedOnce : Bool := false
  m_runCtxHistoryRt : RenderTargetHandle := {}
  m_runCtxPrevMomentsRt : RenderTargetHandle := {}
  m_runCtxCurrentMomentsRt : RenderTargetHandle := {}

namespace RtShadows

/-- The local `prevRtIdx = getFrameCount() & 1`. -/
def prevRtIdx (frameCount : Nat) : Nat := frameCount &&& 1

/-- The index `!prevRtIdx` of the moments texture imported as the current one. -/
def currentRtIdx (frameCount : Nat) : Nat := logicalNot (prevRtIdx frameCount)

/-- Embedding of the "Import RTs" block of `RtShadows::populateRenderGraph` (188-216), keeping
the `importRenderTarget` calls; the `newRenderTarget` calls in between ask for graph-owned
targets and import nothing. -/
def populateRenderGraphImports (self : RtShadows) (env : FrameEnv) :
    RtShadows × List ImportCall :=
  if !self.m_rtsImportedOnce then
    ({ self with m_runCtxHistoryRt := env.importedHandle 0,
                 m_runCtxPrevMomentsRt := env.importedHandle 1,
                 m_rtsImportedOnce := true,
                 m_runCtxCurrentMomentsRt := env.importedHandle 2 },
     [⟨self.m_historyRt, some .kSampledFragment⟩,
      ⟨self.m_momentsRts (prevRtIdx env.frameCount), some .kSampledFragment⟩,
      ⟨self.m_momentsRts (currentRtIdx env.frameCount), some .kNone⟩])
  else
    ({ self with m_runCtxHistoryRt := env.importedHandle 0,
                 m_runCtxPrevMomentsRt := env.importedHandle 1,
                 m_runCtxCurrentMomentsRt := env.importedHandle 2 },
     [⟨self.m_historyRt, none⟩,
      ⟨self.m_momentsRts (prevRtIdx env.frameCount), none⟩,
      ⟨self.m_momentsRts (currentRtIdx env.frameCount), some .kNone⟩])

/-- The dependencies that the pass "RtShadows" declares on the two moments targets in
`RtShadows::populateRenderGraph` (249-250): `m_prevMomentsRt` is sampled, `m_currentMomentsRt` is
written as an image. -/
def momentsDependencies (self : RtShadows) : List (RenderTargetHandle × TextureUsageBit) :=
  [(self.m_runCtxPrevMomentsRt, .kSampledTraceRays),
   (self.m_runCtxCurrentMomentsRt, .kImageTraceRaysWrite)]

end RtShadows

/-- Embedding of class `DepthDownscale`: the HiZ texture, the flag `m_hizTexImportedOnce` and the
handle `m_runCtx.m_hizRt`. The member declarations are in `DepthDownscale.h`, outside the embedded
sources, so the flag has no default here: its initial value is stated where it is needed. -/
structure DepthDownscale where
  m_hizTex : Tex
  m_hizTexImportedOnce : Bool
  m_hizRt : RenderTargetHandle := {}

namespace DepthDownscale

/-- Embedding of `DepthDownscale::importRenderTargets`. -/
def importRenderTargets (self : DepthDownscale) (env : FrameEnv) :
    DepthDownscale × List ImportCall :=
  if self.m_hizTexImportedOnce then
    ({ self with m_hizRt := env.importedHandle 0 }, [⟨self.m_hizTex, none⟩])
  else
    ({ self with m_hizRt := env.importedHandle 0, m_hizTexImportedOnce := true },
     [⟨self.m_hizTex, some .kSampledFragment⟩])

end DepthDownscale

/-- Runs a stage over a sequence of frames and collects, frame by frame, the `importRenderTarget`
calls it makes. -/
def runFrames {σ : Type} (step : σ → FrameEnv → σ × List ImportCall) :
    σ → List FrameEnv → List (List ImportCall)
  | _, [] => []
  | s, env :: envs => (step s env).2 :: runFrames step (step s env).1 envs

/-- In the per-frame call lists `tr`, every call of the overload without usage is for a texture
that a call in an strictly earlier frame imported. -/
def NoUsageOnlyAfterEarlierFrame (tr : List (List ImportCall)) : Prop :=
  ∀ (i : Nat) (c : ImportCall), c ∈ tr.getD i [] → c.usage = none →
    ∃ j, j < i ∧ ∃ c' ∈ tr.getD j [], c'.tex = c.tex

/-- In the call sequence `calls`, a call for a texture that no earlier call imported passes an
explicit usage. -/
def FirstImportExplicit (calls : List ImportCall) : Prop :=
  ∀ (k : Nat) (c : ImportCall), calls[k]? = some c →
    (∀ (k' : Nat) (c' : ImportCall), k' < k → calls[k']? = some c' → c'.tex ≠ c.tex) →
    c.usage ≠ none

/-! ## Sorting the point lights of the render queue

`PointLightQueueElement` (RenderQueue.h, 110-134) and the `std::sort` call on
`results.m_pointLights` in `CombineResultsTask::combine` (Visibility.cpp, 582-593). -/

/-- Embedding of class `PointLightQueueElement`, restricted to the members the sort reads:
`m_uuid` and the array `m_shadowRenderQueues` of `RenderQueue*`, a pointer being a number and
`nullptr` being 0. -/
structure PointLightQueueElement where
  m_uuid : Nat
  m_shadowRenderQueues : List Nat
deriving DecidableEq, Repr

/-- Embedding of `PointLightQueueElement::hasShadow`: `m_shadowRenderQueues[0] != nullptr`. -/
def PointLightQueueElement.hasShadow (e : PointLightQueueElement) : Bool :=
  e.m_shadowRenderQueues.getD 0 0 != 0

/-- Embedding of the comparison lambda given to `std::sort` for `m_pointLights`; the two `Bool`
values are compared as the integers 0 and 1. -/
def pointLightLess (a b : PointLightQueueElement) : Bool :=
  if a.hasShadow != b.hasShadow then
    decide (a.hasShadow.toNat < b.hasShadow.toNat)
  else
    decide (a.m_uuid < b.m_uuid)

/-- The postcondition of `std::sort(first, last, comp)`: the output is a rearrangement of the
input in which no element is `comp`-less than an element placed before it. -/
def StdSortResult {α : Type} (comp : α → α → Bool) (input out : List α) : Prop :=
  out.Perm input ∧ out.Pairwise (fun x y => comp y x = false)

instance {α : Type} [DecidableEq α] (comp : α → α → Bool) (input out : List α) :
    Decidable (StdSortResult comp input out) := by
  unfold StdSortResult
  exact inferInstance

/-! ## Render targets of a `RenderGraphDescription`

`RenderTargetDescription` (RenderGraph.h, 85-111) and `RenderGraphDescription::RT` (549-559) are
embedded from the header. The bodies of `newRenderTarget` and `importRenderTarget` are in
`RenderGraph.inl.h`, which is not among the sources; they are modelled from the specification. -/

/-- Embedding of class `RenderTargetDescription`: the inherited `TextureInitInfo` (member
`m_usage` apart, its content is a value of an open type `I`) and the private `m_hash`. -/
structure RenderTargetDescription (I : Type) where
  m_initInfo : I
  m_usage : UsageBits := 0
  m_hash : Nat := 0

/-- Embedding of class `RenderGraphDescription::RT`. -/
structure RenderGraphDescription.RT (I : Type) where
  m_initInfo : Option I := none
  m_hash : Nat := 0
  m_importedTex : Option Tex := none
  m_importedLastKnownUsage : UsageBits := 0
  m_usageDerivedByDeps : UsageBits := 0
  m_importedAndUndefinedUsage : Bool := false

/-- Embedding of class `RenderGraphDescription`, restricted to the array `m_renderTargets`. -/
structure RenderGraphDescription (I : Type) where
  m_renderTargets : List (RenderGraphDescription.RT I) := []

namespace RenderGraphDescription

/-- Modelled from the spec: the lookup behind the deduplication of `newRenderTarget`, which is
in `RenderGraph.inl.h`: the index of the first render target of the description that is
internally managed (not imported) and has the description hash `hash`. -/
def findInternalRenderTarget {I : Type} (hash : Nat) : List (RT I) → Option Nat
  | [] => none
  | rt :: rest =>
    if rt.m_importedTex.isNone && rt.m_hash == hash then some 0
    else (findInternalRenderTarget hash rest).map (· + 1)

/-- Modelled from the spec: `newRenderTarget(description)`, whose body is in
`RenderGraph.inl.h`: "requests an internally-managed render target; repeated calls with an
identical description hash within the same frame return the same handle (deduplication), not
separate physical resources". A handle is the index of the render target in the description. -/
def newRenderTarget {I : Type} (g : RenderGraphDescription I)
    (initInf : RenderTargetDescription I) : RenderTargetHandle × RenderGraphDescription I :=
  match findInternalRenderTarget initInf.m_hash g.m_renderTargets with
  | some idx => (⟨⟨idx⟩⟩, g)
  | none =>
    (⟨⟨g.m_renderTargets.length⟩⟩,
     { g with m_renderTargets := g.m_renderTargets ++
        [{ m_initInfo := some initInf.m_initInfo, m_hash := initInf.m_hash }] })

/-- Modelled from the spec: `importRenderTarget(texture, usage)`, whose body is in
`RenderGraph.inl.h`: "registers an externally-owned texture" with its caller-declared usage. -/
def importRenderTarget {I : Type} (g : RenderGraphDescription I) (tex : Tex)
    (usage : UsageBits) : RenderTargetHandle × RenderGraphDescription I :=
  (⟨⟨g.m_renderTargets.length⟩⟩,
   { g with m_renderTargets := g.m_renderTargets ++
      [{ m_importedTex := some tex, m_importedLastKnownUsage := usage }] })

/-- Modelled from the spec: the overload `importRenderTarget(texture)` without usage, whose body
is in `RenderGraph.inl.h`: the texture is registered and its usage is left to be looked up from
the previous frame. -/
def importRenderTargetNoUsage {I : Type} (g : RenderGraphDescription I) (tex : Tex) :
    RenderTargetHandle × RenderGraphDescription I :=
  (⟨⟨g.m_renderTargets.length⟩⟩,
   { g with m_renderTargets := g.m_renderTargets ++
      [{ m_importedTex := some tex, m_importedAndUndefinedUsage := true }] })

/-- A call on a `RenderGraphDescription` that can change `m_renderTargets`. -/
inductive RenderTargetOp (I : Type) where
  | newRenderTarget (initInf : RenderTargetDescription I)
  | importRenderTarget (tex : Tex) (usage : UsageBits)
  | importRenderTargetNoUsage (tex : Tex)

/-- The description after one call. -/
def applyOp {I : Type} (g : RenderGraphDescription I) : RenderTargetOp I → RenderGraphDescription I
  | .newRenderTarget initInf => (g.newRenderTarget initInf).2
  | .importRenderTarget tex usage => (g.importRenderTarget tex usage).2
  | .importRenderTargetNoUsage tex => (g.importRenderTargetNoUsage tex).2

/-- The description after a sequence of calls, made in order while building one frame. -/
def applyOps {I : Type} (g : RenderGraphDescription I) (ops : List (RenderTargetOp I)) :
    RenderGraphDescription I :=
  ops.foldl applyOp g

end RenderGraphDescription

/-! ## Graph compiler: dependencies and batches

`RenderGraph::compileNewGraph`, `initRenderPassesAndSetDeps`, `initBatches`, `passADependsOnB`
and `passHasUnmetDependencies` are declared in RenderGraph.h (633, 720-737); their bodies are in
`RenderGraph.cpp`, which is not among the sources. They are modelled from section 4.2 of the
specification. Passes are identified by their index in the pass list of the description. -/

/-- The three kinds of resource a dependency can name. -/
inductive ResourceKind where
  | kBuffer
  | kTexture
  | kAccelerationStructure
deriving DecidableEq, Repr

/-- Modelled from the spec: a dependency record of a pass description, as the compiler of
`RenderGraph.cpp` reads it: the resource (kind and handle index), whether the usage mask implies
writing ("declaring a usage bit that implies writing marks the pass as a producer"; every record
counts as a read, "any usage bit implies at least a read for ordering purposes"), and the
sub-resource, of a type `S` left open. -/
structure PassDependency (S : Type) where
  kind : ResourceKind
  handle : Nat
  writes : Bool
  sub : S
deriving DecidableEq, Repr

/-- Modelled from the spec: a pass description of `RenderGraphDescription::m_passes`, reduced to
its dependency records. -/
abbrev PassDescription (S : Type) := List (PassDependency S)

namespace RenderGraph

/-- Modelled from the spec: `passADependsOnB`, whose body is in `RenderGraph.cpp` (step 1 of
section 4.2): the passes have records on the same resource and on overlapping sub-resources, "with
at least one side being a write (read-after-read is not a dependency)". `overlaps` is the
sub-resource overlap test. -/
def passADependsOnB {S : Type} (overlaps : S → S → Bool) (a b : PassDescription S) : Bool :=
  a.any fun da => b.any fun db =>
    da.kind == db.kind && da.handle == db.handle && (da.writes || db.writes) &&
      overlaps da.sub db.sub

/-- Modelled from the spec: the dependency list that `initRenderPassesAndSetDeps`, whose body is
in `RenderGraph.cpp`, computes for pass `passIdx`: the passes before it in the list ("for every
ordered pair of passes (A before B in the list)") on which it depends. -/
def dependsOn {S : Type} (overlaps : S → S → Bool) (passes : List (PassDescription S))
    (passIdx : Nat) : List Nat :=
  (List.range passIdx).filter fun prevPassIdx =>
    passADependsOnB overlaps (passes.getD passIdx []) (passes.getD prevPassIdx [])

/-- Modelled from the spec: `passHasUnmetDependencies`, whose body is in `RenderGraph.cpp`: the
pass has a "dependency on any pass not yet scheduled in an earlier batch". -/
def passHasUnmetDependencies (earlierBatches : List (List Nat)) (deps : List Nat) : Bool :=
  deps.any fun depPassIdx => !(earlierBatches.any fun batch => batch.contains depPassIdx)

/-- Modelled from the spec: one step of the forward scan of `initBatches`, whose body is in
`RenderGraph.cpp` (step 2 of section 4.2): "a pass joins the current batch if it has no unmet
dependency on any pass not yet scheduled in an earlier batch; otherwise a new batch starts". The
current batch is the last of the list; the first pass opens the first batch. -/
def addPassToBatches (deps : List Nat) (batches : List (List Nat)) (passIdx : Nat) :
    List (List Nat) :=
  match batches.getLast? with
  | none => [[passIdx]]
  | some current =>
    if passHasUnmetDependencies batches.dropLast deps then batches ++ [[passIdx]]
    else batches.dropLast ++ [current ++ [passIdx]]

/-- Modelled from the spec: `initBatches`, whose body is in `RenderGraph.cpp`: "process passes in
a single forward scan". -/
def initBatches {S : Type} (overlaps : S → S → Bool) (passes : List (PassDescription S)) :
    List (List Nat) :=
  (List.range passes.length).foldl
    (fun batches passIdx => addPassToBatches (dependsOn overlaps passes passIdx) batches passIdx)
    []

/-- Modelled from the spec: the batch list produced by `compileNewGraph`, whose body is in
`RenderGraph.cpp`: dependencies are set, then batches are formed. -/
def compileNewGraph {S : Type} (overlaps : S → S → Bool) (passes : List (PassDescription S)) :
    List (List Nat) :=
  initBatches overlaps passes

end RenderGraph

/-- The batch list after the forward scan of `initBatches` has processed the first `k` passes. -/
def RenderGraph.batchesAfter {S : Type} (overlaps : S → S → Bool)
    (passes : List (PassDescription S)) (k : Nat) : List (List Nat) :=
  (List.range k).foldl
    (fun batches passIdx => addPassToBatches (dependsOn overlaps passes passIdx) batches passIdx)
    []

/-- Position, in the batch list, of the first batch that contains pass `p`. -/
def batchIndexOf (p : Nat) : List (List Nat) → Option Nat
  | [] => none
  | batch :: rest => if p ∈ batch then some 0 else (batchIndexOf p rest).map (· + 1)

/-- Both passes are in a batch and the batch of `a` comes strictly before the batch of `b`. -/
def batchPrecedes (batches : List (List Nat)) (a b : Nat) : Bool :=
  match batchIndexOf a batches, batchIndexOf b batches with
  | some i, some j => decide (i < j)
  | _, _ => false

/-- Pass `b` reads a sub-resource that pass `a` writes: a record of `b` and a record of `a` that
writes name the same resource, on sub-resources that the overlap test, applied to the record of
`b` and the record of `a`, finds overlapping. -/
def readsWhatWrites {S : Type} (overlaps : S → S → Bool) (b a : PassDescription S) : Bool :=
  b.any fun db => a.any fun da =>
    da.writes && (db.kind == da.kind && db.handle == da.handle && overlaps db.sub da.sub)

/-- The overlap test on buffer sub-resources `(offset, range)`: `bufferRangeOverlaps` returns
`true`. -/
def bufferSubresourceOverlaps (a b : Nat × Nat) : Bool :=
  RenderGraphDescription.bufferRangeOverlaps a.1 a.2 b.1 b.2 == some true

/-! ## Sorting the spot lights of the render queue

`SpotLightQueueElement` (RenderQueue.h, 139-163) and the `std::sort` call on
`results.m_spotLights` in `CombineResultsTask::combine` (Visibility.cpp, 595-605). -/

/-- Embedding of class `SpotLightQueueElement`, restricted to the members the sort reads:
`m_uuid` and the pointer `m_shadowRenderQueue`, a pointer being a number and `nullptr` being 0. -/
structure SpotLightQueueElement where
  m_uuid : Nat
  m_shadowRenderQueue : Nat
deriving DecidableEq, Repr

/-- Embedding of `SpotLightQueueElement::hasShadow`: `m_shadowRenderQueue != nullptr`. -/
def SpotLightQueueElement.hasShadow (e : SpotLightQueueElement) : Bool :=
  e.m_shadowRenderQueue != 0

/-- Embedding of the comparison lambda given to `std::sort` for `m_spotLights`; the two `Bool`
values are compared as the integers 0 and 1. -/
def spotLightLess (a b : SpotLightQueueElement) : Bool :=
  if a.hasShadow != b.hasShadow then
    decide (a.hasShadow.toNat > b.hasShadow.toNat)
  else
    decide (a.m_uuid < b.m_uuid)

/-! ## `computeLod` (Visibility.cpp, 27-50) -/

/-- The constant `kMaxLodCount`, which `computeLod` asserts statically to be 3. -/
def kMaxLodCount : Nat := 3

/-- Embedding of `computeLod`. Distances are values of a linear order `α` with a zero, which is
what the comparisons of `F32` values other than NaN are; `lodDistance i` is
`frustum.getLodDistance(i)`. -/
def computeLod {α : Type} [LinearOrder α] [Zero α] (lodDistance : Nat → α)
    (distanceFromTheNearPlane : α) : Nat :=
  if distanceFromTheNearPlane < 0 then 2
  else if distanceFromTheNearPlane ≤ lodDistance 0 then 0
  else if distanceFromTheNearPlane ≤ lodDistance 1 then 1
  else 2

/-! ## `generateJitter` (Renderer.cpp, 79-110)

The `F32` values of the function are embedded as rational numbers: the embedding computes in
exact arithmetic and leaves the rounding of `F32` operations out. -/

/-- Embedding of either `while(index > 0)` loop of `generateJitter`, with `fuel` bounding the
number of iterations: `none` means that the fuel ran out before the loop ended. -/
def haltonLoop (base : Nat) (invBase : ℚ) : Nat → Nat → ℚ → ℚ → Option ℚ
  | 0, index, _, result => if index > 0 then none else some result
  | fuel + 1, index, fraction, result =>
    if index > 0 then
      haltonLoop base invBase fuel (index / base) (fraction * invBase)
        (result + ((index % base : Nat) : ℚ) * fraction)
    else some result

/-- Embedding of `generateJitter`: `frame + 1` is a `U32` sum; each loop may run 32 times. -/
def generateJitter (frame : Nat) : Option (ℚ × ℚ) :=
  match haltonLoop 2 (1 / 2) 32 ((frame + 1) % 2 ^ 32) (1 / 2) 0,
        haltonLoop 3 (1 / 3) 32 ((frame + 1) % 2 ^ 32) (1 / 3) 0 with
  | some x, some y => some (x - 1 / 2, y - 1 / 2)
  | _, _ => none

/-- The sum of `d / b ^ (i + 1)` over the digits `d` of the list `ds`, the first digit having
position `i = k`, the next `k + 1`, and so on. -/
def mirroredDigitsSum (b : Nat) (k : Nat) (ds : List Nat) : ℚ :=
  ((ds.enumFrom k).map (fun p => (p.2 : ℚ) / (b : ℚ) ^ (p.1 + 1))).sum

/-- The radical inverse of `n` in base `b`: the digits of `n` in base `b`, least significant
first, mirrored about the radix point, i.e. the sum of `d_i / b ^ (i + 1)`. -/
def radicalInverse (b n : Nat) : ℚ :=
  mirroredDigitsSum b 0 (Nat.digits b n)

/-! ## The command line of the glTF importer (Tools/GltfImporter/Main.cpp, 10-218) -/

/-- The error codes of `Error` that the embedded functions return: `Error::kNone` is
`Except.ok`, `Error::kUserData` is named by `parseCommandLineArgs`, and every other code can only
come out of `CString::toNumber`. -/
inductive Error where
  | kUserData
  | kOtherError (code : Nat)
deriving DecidableEq, Repr

/-- The three instances of `CString::toNumber` that `parseCommandLineArgs` calls, for `I`, `U32`
and `F32` destinations. Their bodies are not among the sources; they are parameters of the
embedding. A parsed `F32` is a rational number. -/
structure NumberParsers where
  toNumberI : String → Except Error Int
  toNumberU32 : String → Except Error Nat
  toNumberF32 : String → Except Error ℚ

/-- Embedding of class `CmdLineArgs` with its member initialisers; `0.25f` and `1.0f` are the
rationals `1/4` and `1`. -/
structure CmdLineArgs where
  m_inputFname : String := ""
  m_outDir : String := ""
  m_rpath : String := ""
  m_texRpath : String := ""
  m_optimizeMeshes : Bool := true
  m_optimizeAnimations : Bool := true
  m_importTextures : Bool := false
  m_threadCount : Nat := kMaxU32
  m_lodCount : Nat := 1
  m_lodFactor : ℚ := 1 / 4
  m_lightIntensityScale : ℚ := 1

/-- The locals of `parseCommandLineArgs` that live across the loop, with `info`. -/
structure ParseState where
  info : CmdLineArgs
  rpathFound : Bool
  texrpathFound : Bool

/-- The text a path option stores: `sprintf("%s/", argv[i])` if `strlen(argv[i]) > 0`, else the
empty string. -/
def pathWithSlash (value : String) : String :=
  if value.length > 0 then value ++ "/" else ""

/-- Embedding of the `for(I i = 3; i < argc; i++)` loop of `parseCommandLineArgs`, as a function
of the arguments `argv[i], argv[i + 1], ...` that remain. The call
`Logger::getSingleton().enableVerbosity(true)` of `-v` acts on the logger only and is left out. -/
def parseLoop (P : NumberParsers) : ParseState → List String → Except Error ParseState
  | st, [] => .ok st
  | st, arg :: rest =>
    if arg = "-texrpath" then
      match rest with
      | value :: rest' =>
        parseLoop P { st with texrpathFound := true,
                              info := { st.info with m_texRpath := pathWithSlash value } } rest'
      | [] => .error .kUserData
    else if arg = "-v" then
      parseLoop P st rest
    else if arg = "-rpath" then
      match rest with
      | value :: rest' =>
        parseLoop P { st with rpathFound := true,
                              info := { st.info with m_rpath := pathWithSlash value } } rest'
      | [] => .error .kUserData
    else if arg = "-optimize-meshes" then
      match rest with
      | value :: rest' =>
        match P.toNumberI value with
        | .error e => .error e
        | .ok optimize =>
          parseLoop P { st with info := { st.info with m_optimizeMeshes := optimize != 0 } } rest'
      | [] => .error .kUserData
    else if arg = "-j" then
      match rest with
      | value :: rest' =>
        match P.toNumberU32 value with
        | .error e => .error e
        | .ok count =>
          parseLoop P { st with info := { st.info with m_threadCount := count } } rest'
      | [] => .error .kUserData
    else if arg = "-lod-count" then
      match rest with
      | value :: rest' =>
        match P.toNumberU32 value with
        | .error e => .error e
        | .ok count =>
          parseLoop P { st with info := { st.info with m_lodCount := count } } rest'
      | [] => .error .kUserData
    else if arg = "-lod-factor" then
      match rest with
      | value :: rest' =>
        match P.toNumberF32 value with
        | .error e => .error e
        | .ok factor =>
          parseLoop P { st with info := { st.info with m_lodFactor := factor } } rest'
      | [] => .error .kUserData
    else if arg = "-light-scale" then
      match rest with
      | value :: rest' =>
        match P.toNumberF32 value with
        | .error e => .error e
        | .ok scale =>
          parseLoop P { st with info := { st.info with m_lightIntensityScale := scale } } rest'
      | [] => .error .kUserData
    else if arg = "-optimize-animations" then
      match rest with
      | value :: rest' =>
        match P.toNumberI value with
        | .error e => .error e
        | .ok optimize =>
          parseLoop P
            { st with info := { st.info with m_optimizeAnimations := optimize != 0 } } rest'
      | [] => .error .kUserData
    else if arg = "-import-textures" then
      match rest with
      | value :: rest' =>
        match P.toNumberI value with
        | .error e => .error e
        | .ok val =>
          parseLoop P { st with info := { st.info with m_importTextures := val != 0 } } rest'
      | [] => .error .kUserData
    else
      .error .kUserData

/-- The assignments after the loop: `m_rpath` falls back on `m_outDir`, then `m_texRpath` on
`m_rpath`. -/
def finishParse (st : ParseState) : CmdLineArgs :=
  let info1 := if !st.rpathFound then { st.info with m_rpath := st.info.m_outDir } else st.info
  if !st.texrpathFound then { info1 with m_texRpath := info1.m_rpath } else info1

/-- Embedding of `parseCommandLineArgs`: `argv` is the argument vector, `argc` its length, and
`info` the object the caller passes in; the result is the error or the `info` left behind. -/
def parseCommandLineArgs (P : NumberParsers) (argv : List String) (info : CmdLineArgs) :
    Except Error CmdLineArgs :=
  if argv.length < 3 then .error .kUserData
  else
    match parseLoop P
        { info := { info with m_inputFname := argv.getD 1 "", m_outDir := argv.getD 2 "" ++ "/" },
          rpathFound := false, texrpathFound := false }
        (argv.drop 3) with
    | .error e => .error e
    | .ok st => .ok (finishParse st)

/-- The nine options of the usage text that take a value. -/
def valueOptions : List String :=
  ["-rpath", "-texrpath", "-optimize-meshes", "-optimize-animations", "-j", "-lod-count",
   "-lod-factor", "-light-scale", "-import-textures"]

/-- The ten options of the usage text. -/
def documentedOptions : List String := "-v" :: valueOptions

/-- The value given to a value-taking option parses: the numeric options need `toNumber` to
succeed, the path options take every text. -/
def valueParses (P : NumberParsers) (option value : String) : Bool :=
  if option = "-optimize-meshes" ∨ option = "-optimize-animations" ∨ option = "-import-textures"
  then (P.toNumberI value).isOk
  else if option = "-j" ∨ option = "-lod-count" then (P.toNumberU32 value).isOk
  else if option = "-lod-factor" ∨ option = "-light-scale" then (P.toNumberF32 value).isOk
  else true

/-- The arguments are a sequence of complete options: each is `-v`, or a value-taking option
followed by one more argument, its value, which parses. -/
def completeOptions (P : NumberParsers) : List String → Bool
  | [] => true
  | arg :: rest =>
    if arg = "-v" then completeOptions P rest
    else if arg ∈ valueOptions then
      match rest with
      | value :: rest' => valueParses P arg value && completeOptions P rest'
      | [] => false
    else false

/-- The value of a text that is one decimal digit. -/
def digitValue (s : String) : Option Nat :=
  match s.data with
  | [c] => if 48 ≤ c.toNat ∧ c.toNat ≤ 57 then some (c.toNat - 48) else none
  | _ => none

/-- A stand-in for `CString::toNumber`, for concrete runs: it reads the one-digit decimal
numerals and fails on every other text. -/
def digitParsers : NumberParsers where
  toNumberI := fun s => match digitValue s with
    | some n => .ok (n : Int)
    | none => .error .kUserData
  toNumberU32 := fun s => match digitValue s with
    | some n => .ok n
    | none => .error .kUserData
  toNumberF32 := fun s => match digitValue s with
    | some n => .ok (n : ℚ)
    | none => .error .kUserData

/-! ## `RtShadows::findShadowLayer` (RtShadows.cpp, 643-688)

The class `ShadowLayer` and the member `m_shadowLayers` are declared in a part of `RtShadows.h`
that is not among the sources; `ShadowLayer` is embedded with the two members the function
uses, and the table is a list of layers. -/

/-- Embedding of class `ShadowLayer`: the two members `findShadowLayer` reads and writes. -/
structure ShadowLayer where
  m_lightUuid : Nat
  m_frameLastUsed : Nat
deriving DecidableEq, Repr

/-- The `U64` value `crntFrame - 1`, which wraps to `kMaxU64` for frame 0. -/
def prevFrame (crntFrame : Nat) : Nat := (crntFrame + 2 ^ 64 - 1) % 2 ^ 64

/-- The locals of `findShadowLayer` at the exit of its `for` loop, with the table. -/
structure ShadowLayerScan where
  layerIdx : Nat
  nextBestLayerIdx : Nat
  rejectHistoryBuffer : Bool
  layers : List ShadowLayer
deriving DecidableEq, Repr

/-- Embedding of the `for` loop of `findShadowLayer`, as a function of the layers
`m_shadowLayers[i], m_shadowLayers[i + 1], ...` still to visit; the result holds those layers as
the loop leaves them. The table has fewer than `2^32` layers, so the `U32` index does not wrap. -/
def findShadowLayerLoop (crntFrame lightUuid : Nat) :
    List ShadowLayer → Nat → Nat → Nat → ShadowLayerScan
  | [], _, nextBestLayerIdx, _ => ⟨kMaxU32, nextBestLayerIdx, false, []⟩
  | layer :: rest, i, nextBestLayerIdx, nextBestLayerFame =>
    if layer.m_lightUuid = lightUuid ∧ layer.m_frameLastUsed = prevFrame crntFrame then
      ⟨i, nextBestLayerIdx, false, ⟨lightUuid, crntFrame⟩ :: rest⟩
    else if layer.m_lightUuid = lightUuid ∨ layer.m_frameLastUsed = kMaxU64 then
      ⟨i, nextBestLayerIdx, true, ⟨lightUuid, crntFrame⟩ :: rest⟩
    else if layer.m_frameLastUsed < nextBestLayerFame then
      let r := findShadowLayerLoop crntFrame lightUuid rest (i + 1) i crntFrame
      { r with layers := layer :: r.layers }
    else
      let r := findShadowLayerLoop crntFrame lightUuid rest (i + 1) nextBestLayerIdx
        nextBestLayerFame
      { r with layers := layer :: r.layers }

/-- What `findShadowLayer` returns and leaves behind: the `Bool` it returns, the two output
parameters and the table `m_shadowLayers`. -/
structure ShadowLayerResult where
  found : Bool
  layerIdx : Nat
  rejectHistoryBuffer : Bool
  layers : List ShadowLayer
deriving DecidableEq, Repr

/-- Embedding of `RtShadows::findShadowLayer`; `crntFrame` is `getRenderer().getFrameCount()`. -/
def findShadowLayer (layers : List ShadowLayer) (crntFrame lightUuid : Nat) :
    ShadowLayerResult :=
  let r := findShadowLayerLoop crntFrame lightUuid layers 0 kMaxU32 crntFrame
  if r.layerIdx = kMaxU32 ∧ r.nextBestLayerIdx ≠ kMaxU32 then
    ⟨true, r.nextBestLayerIdx, true, r.layers.set r.nextBestLayerIdx ⟨lightUuid, crntFrame⟩⟩
  else
    ⟨decide (r.layerIdx ≠ kMaxU32), r.layerIdx, r.rejectHistoryBuffer, r.layers⟩

/-- One call of `findShadowLayer`: the frame count at the time of the call and the light. -/
structure ShadowLayerCall where
  frame : Nat
  lightUuid : Nat
deriving DecidableEq, Repr

/-- The table after a sequence of calls, made in order. -/
def runShadowLayerCalls (layers : List ShadowLayer) (calls : List ShadowLayerCall) :
    List ShadowLayer :=
  calls.foldl (fun t c => (findShadowLayer t c.frame c.lightUuid).layers) layers

/-- The all-empty table of `n` layers: every `m_frameLastUsed` is `kMaxU64`; `uuid0` is the
initial `m_lightUuid` of a layer. -/
def emptyShadowLayers (n uuid0 : Nat) : List ShadowLayer :=
  List.replicate n ⟨uuid0, kMaxU64⟩

/-- The layer records the light of the call with `m_frameLastUsed == crntFrame - 1`. -/
def recordsPrevFrame (c : ShadowLayerCall) (layer : ShadowLayer) : Prop :=
  layer.m_lightUuid = c.lightUuid ∧ layer.m_frameLastUsed = prevFrame c.frame

instance (c : ShadowLayerCall) (layer : ShadowLayer) : Decidable (recordsPrevFrame c layer) := by
  unfold recordsPrevFrame
  exact inferInstance

/-- The frame numbers of the calls do not decrease and no light is given two calls in one
frame. -/
def NonDecreasingOncePerFrame (calls : List ShadowLayerCall) : Prop :=
  calls.Pairwise (fun a b => a.frame ≤ b.frame) ∧ calls.Nodup

/-- What holds of every table reached from the all-empty table of `n` layers by the calls
`done`, when no call is made in frame `kMaxU64`: the used layers come first and record pairwise
different lights, each through a call of `done`, and the other layers are as they started. -/
def ShadowTableInv (n uuid0 : Nat) (done : List ShadowLayerCall) (layers : List ShadowLayer) :
    Prop :=
  layers.length = n ∧
  ∃ (used : List ShadowLayer) (m : Nat),
    layers = used ++ List.replicate m ⟨uuid0, kMaxU64⟩ ∧
    (∀ l ∈ used, l.m_frameLastUsed ≠ kMaxU64) ∧
    (used.map (fun l => l.m_lightUuid)).Nodup ∧
    (∀ l ∈ used, (⟨l.m_frameLastUsed, l.m_lightUuid⟩ : ShadowLayerCall) ∈ done)

/-- The half-open byte ranges `[offsetA, offsetA + rangeA)` and `[offsetB, offsetB + rangeB)`
have a byte in common. -/
def rangesShareByte (offsetA rangeA offsetB rangeB : Nat) : Prop :=
  ∃ x : Nat, offsetA ≤ x ∧ x < offsetA + rangeA ∧ offsetB ≤ x ∧ x < offsetB + rangeB

/-! ## Theorems -/

open RenderGraphDescription

/-- C1: for positive ranges, neither equal to `kMaxPtrSize`, whose ends `offset + range` do not
exceed `2^64 - 1`, two byte ranges that share a byte are reported as overlapping. -/
theorem bufferRangeOverlaps_no_false_negative (offsetA rangeA offsetB rangeB : Nat)
    (hA : 0 < rangeA) (hB : 0 < rangeB)
    (hAfin : rangeA ≠ kMaxPtrSize) (hBfin : rangeB ≠ kMaxPtrSize)
    (hAend : offsetA + rangeA ≤ 2 ^ 64 - 1) (hBend : offsetB + rangeB ≤ 2 ^ 64 - 1)
    (hshare : rangesShareByte offsetA rangeA offsetB rangeB) :
    bufferRangeOverlaps offsetA rangeA offsetB rangeB = some true := by
  obtain ⟨x, h1, h2, h3, h4⟩ := hshare
  have hmA : (offsetA + rangeA) % ptrSizeModulus = offsetA + rangeA :=
    Nat.mod_eq_of_lt (by unfold ptrSizeModulus; omega)
  have hmB : (offsetB + rangeB) % ptrSizeModulus = offsetB + rangeB :=
    Nat.mod_eq_of_lt (by unfold ptrSizeModulus; omega)
  unfold bufferRangeOverlaps
  rw [if_pos ⟨hA, hB⟩, if_neg (by tauto), hmA, hmB]
  by_cases hle : offsetA ≤ offsetB
  · rw [if_pos hle]
    have : offsetA + rangeA ≥ offsetB := by omega
    simp [this]
  · rw [if_neg hle]
    have : offsetB + rangeB ≥ offsetA := by omega
    simp [this]

/-- Witness for C1: `[0, 8)` and `[4, 12)` share byte 4. -/
theorem bufferRangeOverlaps_no_false_negative_witness :
    bufferRangeOverlaps 0 8 4 8 = some true :=
  bufferRangeOverlaps_no_false_negative 0 8 4 8 (by decide) (by decide)
    (by unfold kMaxPtrSize ptrSizeModulus; omega) (by unfold kMaxPtrSize ptrSizeModulus; omega)
    (by omega) (by omega) ⟨4, by omega, by omega, by omega, by omega⟩

/-- C2 (evaluation at the failing input): the byte ranges `[0, 4)` and `[4, 8)` share no byte,
yet `bufferRangeOverlaps 0 4 4 4` returns `true`. -/
theorem bufferRangeOverlaps_adjacent_reported :
    ¬ rangesShareByte 0 4 4 4 ∧ bufferRangeOverlaps 0 4 4 4 = some true := by
  refine ⟨?_, by decide⟩
  rintro ⟨x, _, h2, h3, _⟩
  omega

/-- For positive ranges, neither equal to `kMaxPtrSize`, whose ends do not exceed `2^64 - 1`:
when at least one byte lies between the two ranges, `bufferRangeOverlaps` returns `false`. -/
theorem bufferRangeOverlaps_false_of_gap (offsetA rangeA offsetB rangeB : Nat)
    (hA : 0 < rangeA) (hB : 0 < rangeB)
    (hAfin : rangeA ≠ kMaxPtrSize) (hBfin : rangeB ≠ kMaxPtrSize)
    (hAend : offsetA + rangeA ≤ 2 ^ 64 - 1) (hBend : offsetB + rangeB ≤ 2 ^ 64 - 1)
    (hgap : offsetA + rangeA < offsetB ∨ offsetB + rangeB < offsetA) :
    bufferRangeOverlaps offsetA rangeA offsetB rangeB = some false := by
  have hmA : (offsetA + rangeA) % ptrSizeModulus = offsetA + rangeA :=
    Nat.mod_eq_of_lt (by unfold ptrSizeModulus; omega)
  have hmB : (offsetB + rangeB) % ptrSizeModulus = offsetB + rangeB :=
    Nat.mod_eq_of_lt (by unfold ptrSizeModulus; omega)
  unfold bufferRangeOverlaps
  rw [if_pos ⟨hA, hB⟩, if_neg (by tauto), hmA, hmB]
  by_cases hle : offsetA ≤ offsetB
  · rw [if_pos hle]
    have : ¬ offsetA + rangeA ≥ offsetB := by omega
    simp [this]
  · rw [if_neg hle]
    have : ¬ offsetB + rangeB ≥ offsetA := by omega
    simp [this]

/-- C3: with positive ranges, `bufferRangeOverlaps` returns `true` as soon as one of the two
ranges is `kMaxPtrSize`, for all offsets and whatever the other range is. -/
theorem bufferRangeOverlaps_whole_buffer (offsetA rangeA offsetB rangeB : Nat)
    (hA : 0 < rangeA) (hB : 0 < rangeB)
    (hwhole : rangeA = kMaxPtrSize ∨ rangeB = kMaxPtrSize) :
    bufferRangeOverlaps offsetA rangeA offsetB rangeB = some true := by
  unfold bufferRangeOverlaps
  rw [if_pos ⟨hA, hB⟩, if_pos hwhole]

/-- Witness for C3: a whole-buffer range against a one-byte range far away. -/
theorem bufferRangeOverlaps_whole_buffer_witness :
    bufferRangeOverlaps 0 kMaxPtrSize 1000 1 = some true :=
  bufferRangeOverlaps_whole_buffer 0 kMaxPtrSize 1000 1 (by decide) (by decide) (Or.inl rfl)

/-- C6: a handle is valid iff its index is not `kMaxU32`; a default constructed handle is not
valid; and each of the four `RenderPassDependency` constructors fails its assertion exactly when
the handle it is given is not valid (so never yields a record from an invalid handle). -/
theorem invalid_handle_dependency_asserts :
    (∀ h : RenderGraphGrObjectHandle, h.isValid = true ↔ h.m_idx ≠ kMaxU32) ∧
    ({} : RenderGraphGrObjectHandle).isValid = false ∧
    ({} : RenderTargetHandle).isValid = false ∧
    ({} : BufferHandle).isValid = false ∧
    ({} : AccelerationStructureHandle).isValid = false ∧
    (∀ (R : Type) (h : RenderTargetHandle) (usage : UsageBits) (sub : TextureSubresourceInfo R),
      RenderPassDependency.ofTextureSubresource h usage sub = none ↔ h.isValid = false) ∧
    (∀ (R : Type) (dflt : TextureSubresourceInfo R) (h : RenderTargetHandle) (usage : UsageBits)
      (aspect : Nat),
      RenderPassDependency.ofWholeTexture dflt h usage aspect = none ↔ h.isValid = false) ∧
    (∀ (R : Type) (h : BufferHandle) (usage : UsageBits),
      (RenderPassDependency.ofBuffer h usage : Option (RenderPassDependency R)) = none ↔
        h.isValid = false) ∧
    (∀ (R : Type) (h : AccelerationStructureHandle) (usage : UsageBits),
      (RenderPassDependency.ofAccelerationStructure h usage : Option (RenderPassDependency R))
        = none ↔ h.isValid = false) := by
  refine ⟨?_, by decide, by decide, by decide, by decide, ?_, ?_, ?_, ?_⟩
  · intro h
    simp [RenderGraphGrObjectHandle.isValid]
  · intro R h usage sub
    unfold RenderPassDependency.ofTextureSubresource
    cases h.isValid <;> simp
  · intro R dflt h usage aspect
    unfold RenderPassDependency.ofWholeTexture
    cases h.isValid <;> simp
  · intro R h usage
    unfold RenderPassDependency.ofBuffer
    cases h.isValid <;> simp
  · intro R h usage
    unfold RenderPassDependency.ofAccelerationStructure
    cases h.isValid <;> simp

/-- Witness for C6: the four constructors applied to default constructed handles. -/
theorem invalid_handle_dependency_asserts_witness :
    RenderPassDependency.ofTextureSubresource ({} : RenderTargetHandle) 1
        (⟨1, 0, ()⟩ : TextureSubresourceInfo Unit) = none ∧
    RenderPassDependency.ofWholeTexture (⟨1, 0, ()⟩ : TextureSubresourceInfo Unit)
        ({} : RenderTargetHandle) 1 0 = none ∧
    (RenderPassDependency.ofBuffer ({} : BufferHandle) 1 : Option (RenderPassDependency Unit))
        = none ∧
    (RenderPassDependency.ofAccelerationStructure ({} : AccelerationStructureHandle) 1 :
        Option (RenderPassDependency Unit)) = none :=
  ⟨(invalid_handle_dependency_asserts.2.2.2.2.2.1 Unit {} 1 ⟨1, 0, ()⟩).2 (by decide),
   (invalid_handle_dependency_asserts.2.2.2.2.2.2.1 Unit ⟨1, 0, ()⟩ {} 1 0).2 (by decide),
   (invalid_handle_dependency_asserts.2.2.2.2.2.2.2.1 Unit {} 1).2 (by decide),
   (invalid_handle_dependency_asserts.2.2.2.2.2.2.2.2 Unit {} 1).2 (by decide)⟩

/-- C7: on every pass the one-argument `setWork` stores 0 as the secondary command buffer count;
the two-argument `setWork n f` stores `n` on a graphics pass (and on any pass when `n = 0`);
on a compute (non-graphics) pass every `n ≠ 0` fails `setWork`'s assertion. -/
theorem setWork_secondLevelCmdbsCount {F : Type} (p : RenderPassDescriptionBase F) (n : Nat)
    (f : F) :
    (p.m_type = RenderPassDescriptionBase.Type.kGraphics ∨ n = 0 →
      p.setWork n f = some { p with m_callback := some f, m_secondLevelCmdbsCount := n }) ∧
    p.setWork1 f = some { p with m_callback := some f, m_secondLevelCmdbsCount := 0 } ∧
    (p.m_type = RenderPassDescriptionBase.Type.kNoGraphics → n ≠ 0 → p.setWork n f = none) := by
  refine ⟨?_, ?_, ?_⟩
  · intro h
    unfold RenderPassDescriptionBase.setWork
    rw [if_pos h]
  · unfold RenderPassDescriptionBase.setWork1 RenderPassDescriptionBase.setWork
    rw [if_pos (Or.inr rfl)]
  · intro ht hn
    unfold RenderPassDescriptionBase.setWork
    rw [if_neg]
    rintro (h | h)
    · rw [ht] at h
      exact absurd h (by decide)
    · exact hn h

/-- Witness for C7: a graphics pass asking for 4 secondary command buffers, and a compute pass
asking for 4. -/
theorem setWork_secondLevelCmdbsCount_witness :
    ((⟨.kGraphics, none, 0⟩ : RenderPassDescriptionBase Unit).setWork 4 ()
        = some ⟨.kGraphics, some (), 4⟩) ∧
    ((⟨.kNoGraphics, none, 0⟩ : RenderPassDescriptionBase Unit).setWork 4 () = none) :=
  ⟨(setWork_secondLevelCmdbsCount (⟨.kGraphics, none, 0⟩ : RenderPassDescriptionBase Unit) 4 ()).1
      (Or.inl rfl),
   (setWork_secondLevelCmdbsCount (⟨.kNoGraphics, none, 0⟩ : RenderPassDescriptionBase Unit)
      4 ()).2.2 rfl (by decide)⟩

/-! ### Frame parity -/

theorem and_one_lt_two (n : Nat) : n &&& 1 < 2 := by
  rw [Nat.and_one_is_mod]; omega

theorem and_one_succ (n : Nat) : (n + 1) &&& 1 = logicalNot (n &&& 1) := by
  rw [Nat.and_one_is_mod, Nat.and_one_is_mod]
  unfold logicalNot
  split <;> omega

theorem and_one_mod_two_pow (n : Nat) : (n % 2 ^ 64) &&& 1 = n &&& 1 := by
  rw [Nat.and_one_is_mod, Nat.and_one_is_mod]
  omega

theorem GBuffer.importRenderTargets_calls (gb : GBuffer) (env : FrameEnv) :
    (gb.importRenderTargets env).2.map ImportCall.tex
      = [gb.m_depthRts (GBuffer.crntDepthRtIdx env.frameCount),
         gb.m_depthRts (GBuffer.prevDepthRtIdx env.frameCount)] ∧
    (gb.importRenderTargets env).1.m_depthRts = gb.m_depthRts ∧
    (gb.importRenderTargets env).1.m_crntFrameDepthRt = env.importedHandle 0 ∧
    (gb.importRenderTargets env).1.m_prevFrameDepthRt = env.importedHandle 1 := by
  unfold GBuffer.importRenderTargets
  split <;> exact ⟨rfl, rfl, rfl, rfl⟩

theorem RtShadows.populateRenderGraphImports_calls (rt : RtShadows) (env : FrameEnv) :
    (rt.populateRenderGraphImports env).2.map ImportCall.tex
      = [rt.m_historyRt, rt.m_momentsRts (RtShadows.prevRtIdx env.frameCount),
         rt.m_momentsRts (RtShadows.currentRtIdx env.frameCount)] ∧
    (rt.populateRenderGraphImports env).1.m_historyRt = rt.m_historyRt ∧
    (rt.populateRenderGraphImports env).1.m_momentsRts = rt.m_momentsRts ∧
    (rt.populateRenderGraphImports env).1.m_runCtxPrevMomentsRt = env.importedHandle 1 ∧
    (rt.populateRenderGraphImports env).1.m_runCtxCurrentMomentsRt = env.importedHandle 2 := by
  unfold RtShadows.populateRenderGraphImports
  split <;> exact ⟨rfl, rfl, rfl, rfl, rfl⟩

theorem logicalNot_next_and_one (n : Nat) :
    logicalNot (nextFrameCount n &&& 1) = n &&& 1 := by
  unfold nextFrameCount
  rw [and_one_mod_two_pow, and_one_succ]
  have h := and_one_lt_two n
  unfold logicalNot
  split <;> split <;> omega

/-- C8: for every frame count `n` (every `U64` value included), each of the three stages picks two
different indices in `{0, 1}` for the texture it reads as "previous" and the one it writes as
"current", and the index written in frame `n` is the index read as "previous" in the next frame
(the frame counter is incremented as a `U64`, so the frame after `2^64 - 1` is frame 0). The
stages import the textures at these indices. `GBuffer::importRenderTargets` imports, in this
order, the depth texture at the current index, whose handle becomes `m_crntFrameDepthRt`, and the
one at the previous index, whose handle becomes `m_prevFrameDepthRt`.
`VolumetricLightingAccumulation::populateRenderGraph` imports the texture at the read index, whose
handle `m_rts[0]` its pass samples, and the one at the write index, whose handle `m_rts[1]` its
pass writes. `RtShadows::populateRenderGraph` imports the history texture, the moments texture at
the previous index, whose handle `m_prevMomentsRt` its pass samples, and the one at the current
index, whose handle `m_currentMomentsRt` its pass writes. Run over frame `n` and the frame after
it, each stage imports in the second frame as "previous/read" the texture it imported as
"current/write" in the first, and the other way round. -/
theorem alternating_textures_by_parity (n : Nat) :
    ((GBuffer.crntDepthRtIdx n < 2 ∧ GBuffer.prevDepthRtIdx n < 2 ∧
      GBuffer.crntDepthRtIdx n ≠ GBuffer.prevDepthRtIdx n ∧
      GBuffer.crntDepthRtIdx n = GBuffer.prevDepthRtIdx (nextFrameCount n)) ∧
    (VolumetricLightingAccumulation.readRtIdx n < 2 ∧
      VolumetricLightingAccumulation.writeRtIdx n < 2 ∧
      VolumetricLightingAccumulation.readRtIdx n ≠ VolumetricLightingAccumulation.writeRtIdx n ∧
      VolumetricLightingAccumulation.writeRtIdx n
        = VolumetricLightingAccumulation.readRtIdx (nextFrameCount n)) ∧
    (RtShadows.prevRtIdx n < 2 ∧ RtShadows.currentRtIdx n < 2 ∧
      RtShadows.prevRtIdx n ≠ RtShadows.currentRtIdx n ∧
      RtShadows.currentRtIdx n = RtShadows.prevRtIdx (nextFrameCount n))) ∧
    (∀ (gb : GBuffer) (h h' : Nat → RenderTargetHandle),
      (gb.importRenderTargets ⟨n, h⟩).2.map ImportCall.tex
        = [gb.m_depthRts (GBuffer.crntDepthRtIdx n), gb.m_depthRts (GBuffer.prevDepthRtIdx n)] ∧
      (gb.importRenderTargets ⟨n, h⟩).1.m_crntFrameDepthRt = h 0 ∧
      (gb.importRenderTargets ⟨n, h⟩).1.m_prevFrameDepthRt = h 1 ∧
      (runFrames GBuffer.importRenderTargets gb [⟨n, h⟩, ⟨nextFrameCount n, h'⟩]).map
          (List.map ImportCall.tex)
        = [[gb.m_depthRts (GBuffer.crntDepthRtIdx n), gb.m_depthRts (GBuffer.prevDepthRtIdx n)],
           [gb.m_depthRts (GBuffer.prevDepthRtIdx n),
            gb.m_depthRts (GBuffer.crntDepthRtIdx n)]]) ∧
    (∀ (vla : VolumetricLightingAccumulation) (h h' : Nat → RenderTargetHandle),
      (vla.populateRenderGraphImports ⟨n, h⟩).2
        = [⟨vla.m_rtTextures (VolumetricLightingAccumulation.readRtIdx n),
            some .kSampledFragment⟩,
           ⟨vla.m_rtTextures (VolumetricLightingAccumulation.writeRtIdx n), some .kNone⟩] ∧
      (vla.populateRenderGraphImports ⟨n, h⟩).1.textureDependencies
        = [(h 0, .kSampledCompute), (h 1, .kImageComputeWrite)] ∧
      (runFrames VolumetricLightingAccumulation.populateRenderGraphImports vla
          [⟨n, h⟩, ⟨nextFrameCount n, h'⟩]).map (List.map ImportCall.tex)
        = [[vla.m_rtTextures (VolumetricLightingAccumulation.readRtIdx n),
            vla.m_rtTextures (VolumetricLightingAccumulation.writeRtIdx n)],
           [vla.m_rtTextures (VolumetricLightingAccumulation.writeRtIdx n),
            vla.m_rtTextures (VolumetricLightingAccumulation.readRtIdx n)]]) ∧
    (∀ (rt : RtShadows) (h h' : Nat → RenderTargetHandle),
      (rt.populateRenderGraphImports ⟨n, h⟩).2.map ImportCall.tex
        = [rt.m_historyRt, rt.m_momentsRts (RtShadows.prevRtIdx n),
           rt.m_momentsRts (RtShadows.currentRtIdx n)] ∧
      (rt.populateRenderGraphImports ⟨n, h⟩).1.momentsDependencies
        = [(h 1, .kSampledTraceRays), (h 2, .kImageTraceRaysWrite)] ∧
      (runFrames RtShadows.populateRenderGraphImports rt
          [⟨n, h⟩, ⟨nextFrameCount n, h'⟩]).map (List.map ImportCall.tex)
        = [[rt.m_historyRt, rt.m_momentsRts (RtShadows.prevRtIdx n),
            rt.m_momentsRts (RtShadows.currentRtIdx n)],
           [rt.m_historyRt, rt.m_momentsRts (RtShadows.currentRtIdx n),
            rt.m_momentsRts (RtShadows.prevRtIdx n)]]) := by
  have hnot := logicalNot_next_and_one n
  have hidx : (GBuffer.crntDepthRtIdx n < 2 ∧ GBuffer.prevDepthRtIdx n < 2 ∧
      GBuffer.crntDepthRtIdx n ≠ GBuffer.prevDepthRtIdx n ∧
      GBuffer.crntDepthRtIdx n = GBuffer.prevDepthRtIdx (nextFrameCount n)) ∧
    (VolumetricLightingAccumulation.readRtIdx n < 2 ∧
      VolumetricLightingAccumulation.writeRtIdx n < 2 ∧
      VolumetricLightingAccumulation.readRtIdx n ≠ VolumetricLightingAccumulation.writeRtIdx n ∧
      VolumetricLightingAccumulation.writeRtIdx n
        = VolumetricLightingAccumulation.readRtIdx (nextFrameCount n)) ∧
    (RtShadows.prevRtIdx n < 2 ∧ RtShadows.currentRtIdx n < 2 ∧
      RtShadows.prevRtIdx n ≠ RtShadows.currentRtIdx n ∧
      RtShadows.currentRtIdx n = RtShadows.prevRtIdx (nextFrameCount n)) := by
    have h1 := and_one_lt_two n
    have h2 := and_one_succ n
    have h3 := and_one_succ (n + 1)
    have h4 := and_one_mod_two_pow (n + 1)
    have h5 := and_one_mod_two_pow ((n + 1) % 2 ^ 64 + 1)
    have h6 : ((n + 1) % 2 ^ 64 + 1) &&& 1 = (n + 1 + 1) &&& 1 := by
      rw [Nat.and_one_is_mod, Nat.and_one_is_mod]
      omega
    simp only [GBuffer.crntDepthRtIdx, GBuffer.prevDepthRtIdx,
      VolumetricLightingAccumulation.readRtIdx, VolumetricLightingAccumulation.writeRtIdx,
      RtShadows.prevRtIdx, RtShadows.currentRtIdx, nextFrameCount]
    rw [h5, h6, h4, h3, h2]
    unfold logicalNot
    refine ⟨⟨h1, ?_, ?_, ?_⟩, ⟨h1, ?_, ?_, ?_⟩, ⟨h1, ?_, ?_, ?_⟩⟩ <;> split <;> simp_all
  refine ⟨hidx, ?_, ?_, ?_⟩
  · intro gb h h'
    have a := GBuffer.importRenderTargets_calls gb ⟨n, h⟩
    have b := GBuffer.importRenderTargets_calls (gb.importRenderTargets ⟨n, h⟩).1
      ⟨nextFrameCount n, h'⟩
    have hswap : GBuffer.crntDepthRtIdx (nextFrameCount n) = GBuffer.prevDepthRtIdx n := rfl
    refine ⟨a.1, a.2.2.1, a.2.2.2, ?_⟩
    simp only [runFrames, List.map_cons, List.map_nil]
    rw [a.1, b.1, a.2.1]
    simp only []
    rw [hswap, ← hidx.1.2.2.2]
  · intro vla h h'
    have hswap : VolumetricLightingAccumulation.writeRtIdx (nextFrameCount n)
        = VolumetricLightingAccumulation.readRtIdx n := hnot
    refine ⟨rfl, rfl, ?_⟩
    simp only [runFrames, List.map_cons, List.map_nil,
      VolumetricLightingAccumulation.populateRenderGraphImports]
    rw [hswap, ← hidx.2.1.2.2.2]
  · intro rt h h'
    have a := RtShadows.populateRenderGraphImports_calls rt ⟨n, h⟩
    have b := RtShadows.populateRenderGraphImports_calls (rt.populateRenderGraphImports ⟨n, h⟩).1
      ⟨nextFrameCount n, h'⟩
    have hswap : RtShadows.currentRtIdx (nextFrameCount n) = RtShadows.prevRtIdx n := hnot
    refine ⟨a.1, ?_, ?_⟩
    · unfold RtShadows.momentsDependencies
      rw [a.2.2.2.1, a.2.2.2.2]
    · simp only [runFrames, List.map_cons, List.map_nil]
      rw [a.1, b.1, a.2.1, a.2.2.1]
      simp only []
      rw [hswap, ← hidx.2.2.2.2.2]

/-! ### Imports without usage -/

theorem noUsage_after_explicit_first_frame (f0 : List ImportCall) (rest : List (List ImportCall))
    (h0 : ∀ c ∈ f0, c.usage ≠ none)
    (hrest : ∀ f ∈ rest, ∀ c ∈ f, ∃ c' ∈ f0, c'.tex = c.tex) :
    NoUsageOnlyAfterEarlierFrame (f0 :: rest) := by
  intro i c hc hnone
  cases i with
  | zero => exact absurd hnone (h0 c (by simpa using hc))
  | succ i =>
    refine ⟨0, Nat.succ_pos i, ?_⟩
    have hc' : c ∈ rest.getD i [] := by simpa using hc
    by_cases hi : i < rest.length
    · have hmem : rest.getD i [] ∈ rest := by
        rw [List.getD_eq_getElem _ _ hi]
        exact List.getElem_mem hi
      simpa using hrest _ hmem c hc'
    · rw [List.getD_eq_default _ _ (by omega)] at hc'
      exact absurd hc' (List.not_mem_nil c)

theorem firstImport_explicit_first_frame (f0 : List ImportCall) (rest : List (List ImportCall))
    (h0 : ∀ c ∈ f0, c.usage ≠ none)
    (hrest : ∀ f ∈ rest, ∀ c ∈ f, ∃ c' ∈ f0, c'.tex = c.tex) :
    FirstImportExplicit (f0 :: rest).flatten := by
  intro k c hk hfirst
  rw [List.flatten_cons] at hk hfirst
  by_cases hlt : k < f0.length
  · rw [List.getElem?_append_left hlt] at hk
    exact h0 c (List.getElem?_mem hk)
  · exfalso
    rw [List.getElem?_append_right (by omega)] at hk
    have hcj : c ∈ rest.flatten := List.getElem?_mem hk
    obtain ⟨f, hf, hcf⟩ := List.mem_flatten.mp hcj
    obtain ⟨c', hc', htex⟩ := hrest f hf c hcf
    obtain ⟨k', hk'lt, hk'⟩ := List.getElem_of_mem hc'
    refine hfirst k' c' (by omega) ?_ htex
    rw [List.getElem?_append_left hk'lt, List.getElem?_eq_getElem hk'lt, hk']

theorem runFrames_calls_mem {σ : Type} (step : σ → FrameEnv → σ × List ImportCall)
    (inv : σ → Prop) (ok : ImportCall → Prop)
    (hstep : ∀ s env, inv s → inv (step s env).1 ∧ ∀ c ∈ (step s env).2, ok c) :
    ∀ (envs : List FrameEnv) (s : σ), inv s → ∀ f ∈ runFrames step s envs, ∀ c ∈ f, ok c := by
  intro envs
  induction envs with
  | nil => intro s _ f hf; simp [runFrames] at hf
  | cons env envs ih =>
    intro s hs f hf c hc
    simp only [runFrames, List.mem_cons] at hf
    rcases hf with rfl | hf
    · exact (hstep s env hs).2 c hc
    · exact ih _ (hstep s env hs).1 f hf c hc

theorem stage_imports_ok {σ : Type} (step : σ → FrameEnv → σ × List ImportCall)
    (inv : σ → Prop) (ok : ImportCall → Prop) (s0 : σ)
    (hstep : ∀ s env, inv s → inv (step s env).1 ∧ ∀ c ∈ (step s env).2, ok c)
    (hinit : inv s0)
    (hexplicit : ∀ env, ∀ c ∈ (step s0 env).2, c.usage ≠ none)
    (hcover : ∀ env c, ok c → ∃ c' ∈ (step s0 env).2, c'.tex = c.tex)
    (envs : List FrameEnv) :
    NoUsageOnlyAfterEarlierFrame (runFrames step s0 envs) ∧
      FirstImportExplicit (runFrames step s0 envs).flatten := by
  cases envs with
  | nil =>
    constructor
    · intro i c hc
      simp [runFrames] at hc
    · intro k c hk
      simp [runFrames] at hk
  | cons env envs =>
    have hrest : ∀ f ∈ runFrames step (step s0 env).1 envs, ∀ c ∈ f,
        ∃ c' ∈ (step s0 env).2, c'.tex = c.tex := by
      intro f hf c hc
      exact hcover env c
        (runFrames_calls_mem step inv ok hstep envs _ (hstep s0 env hinit).1 f hf c hc)
    exact ⟨noUsage_after_explicit_first_frame _ _ (hexplicit env) hrest,
      firstImport_explicit_first_frame _ _ (hexplicit env) hrest⟩

theorem parity_index_cases (n : Nat) :
    (n &&& 1 = 0 ∧ ((n + 1) % 2 ^ 64) &&& 1 = 1 ∧ logicalNot (n &&& 1) = 1) ∨
    (n &&& 1 = 1 ∧ ((n + 1) % 2 ^ 64) &&& 1 = 0 ∧ logicalNot (n &&& 1) = 0) := by
  rw [and_one_mod_two_pow, and_one_succ]
  have h := and_one_lt_two n
  rcases Nat.lt_or_ge (n &&& 1) 1 with h0 | h1
  · left
    have h' : n &&& 1 = 0 := by omega
    rw [h']
    exact ⟨rfl, rfl, rfl⟩
  · right
    have h' : n &&& 1 = 1 := by omega
    rw [h']
    exact ⟨rfl, rfl, rfl⟩

theorem GBuffer.depthRtIdx_cases (n : Nat) :
    (GBuffer.crntDepthRtIdx n = 0 ∧ GBuffer.prevDepthRtIdx n = 1) ∨
    (GBuffer.crntDepthRtIdx n = 1 ∧ GBuffer.prevDepthRtIdx n = 0) := by
  unfold GBuffer.crntDepthRtIdx GBuffer.prevDepthRtIdx
  rcases parity_index_cases n with ⟨h1, h2, _⟩ | ⟨h1, h2, _⟩
  · exact Or.inl ⟨h1, h2⟩
  · exact Or.inr ⟨h1, h2⟩

theorem RtShadows.momentsRtIdx_cases (n : Nat) :
    (RtShadows.prevRtIdx n = 0 ∧ RtShadows.currentRtIdx n = 1) ∨
    (RtShadows.prevRtIdx n = 1 ∧ RtShadows.currentRtIdx n = 0) := by
  unfold RtShadows.currentRtIdx RtShadows.prevRtIdx
  rcases parity_index_cases n with ⟨h1, _, h3⟩ | ⟨h1, _, h3⟩
  · exact Or.inl ⟨h1, h3⟩
  · exact Or.inr ⟨h1, h3⟩

/-- C9: over every sequence of frames, a `DepthDownscale` whose flag `m_hizTexImportedOnce` starts
`false`, a `GBuffer` whose handle `m_crntFrameDepthRt` starts invalid (default constructed) and an
`RtShadows` whose flag `m_rtsImportedOnce` starts `false` call the overload of
`importRenderTarget` without usage only for a texture that the same stage imported in an earlier
frame, and the first import of each texture passes an explicit usage. -/
theorem imports_without_usage_follow_explicit_import (envs : List FrameEnv) :
    (∀ dd : DepthDownscale, dd.m_hizTexImportedOnce = false →
      NoUsageOnlyAfterEarlierFrame (runFrames DepthDownscale.importRenderTargets dd envs) ∧
      FirstImportExplicit (runFrames DepthDownscale.importRenderTargets dd envs).flatten) ∧
    (∀ gb : GBuffer, gb.m_crntFrameDepthRt.isValid = false →
      NoUsageOnlyAfterEarlierFrame (runFrames GBuffer.importRenderTargets gb envs) ∧
      FirstImportExplicit (runFrames GBuffer.importRenderTargets gb envs).flatten) ∧
    (∀ rt : RtShadows, rt.m_rtsImportedOnce = false →
      NoUsageOnlyAfterEarlierFrame (runFrames RtShadows.populateRenderGraphImports rt envs) ∧
      FirstImportExplicit (runFrames RtShadows.populateRenderGraphImports rt envs).flatten) := by
  refine ⟨?_, ?_, ?_⟩
  · intro dd hdd
    refine stage_imports_ok DepthDownscale.importRenderTargets
      (fun s => s.m_hizTex = dd.m_hizTex) (fun c => c.tex = dd.m_hizTex) dd ?_ rfl ?_ ?_ envs
    · intro s env hs
      unfold DepthDownscale.importRenderTargets
      split <;> simp [hs]
    · intro env c hc
      simp [DepthDownscale.importRenderTargets, hdd] at hc
      simp [hc]
    · intro env c hc
      simp [DepthDownscale.importRenderTargets, hdd, hc]
  · intro gb hgb
    refine stage_imports_ok GBuffer.importRenderTargets
      (fun s => s.m_depthRts = gb.m_depthRts)
      (fun c => c.tex = gb.m_depthRts 0 ∨ c.tex = gb.m_depthRts 1) gb ?_ rfl ?_ ?_ envs
    · intro s env hs
      unfold GBuffer.importRenderTargets
      rcases GBuffer.depthRtIdx_cases env.frameCount with ⟨h1, h2⟩ | ⟨h1, h2⟩ <;>
        split <;> simp [hs, h1, h2]
    · intro env c hc
      simp [GBuffer.importRenderTargets, hgb] at hc
      rcases hc with rfl | rfl <;> simp
    · intro env c hc
      simp only [GBuffer.importRenderTargets, hgb]
      rcases GBuffer.depthRtIdx_cases env.frameCount with ⟨h1, h2⟩ | ⟨h1, h2⟩ <;>
        rcases hc with hc | hc <;> simp [h1, h2, hc]
  · intro rt hrt
    refine stage_imports_ok RtShadows.populateRenderGraphImports
      (fun s => s.m_historyRt = rt.m_historyRt ∧ s.m_momentsRts = rt.m_momentsRts)
      (fun c => c.tex = rt.m_historyRt ∨ c.tex = rt.m_momentsRts 0 ∨ c.tex = rt.m_momentsRts 1)
      rt ?_ ⟨rfl, rfl⟩ ?_ ?_ envs
    · intro s env hs
      unfold RtShadows.populateRenderGraphImports
      rcases RtShadows.momentsRtIdx_cases env.frameCount with ⟨h1, h3⟩ | ⟨h1, h3⟩ <;>
        split <;> simp [hs.1, hs.2, h1, h3]
    · intro env c hc
      simp [RtShadows.populateRenderGraphImports, hrt] at hc
      rcases hc with rfl | rfl | rfl <;> simp
    · intro env c hc
      simp only [RtShadows.populateRenderGraphImports, hrt]
      rcases RtShadows.momentsRtIdx_cases env.frameCount with ⟨h1, h3⟩ | ⟨h1, h3⟩ <;>
        rcases hc with hc | hc | hc <;> simp [h1, h3, hc]

/-- Witness for C9: three frames of each stage, with the call lists of `GBuffer`. -/
theorem imports_without_usage_follow_explicit_import_witness :
    NoUsageOnlyAfterEarlierFrame (runFrames DepthDownscale.importRenderTargets
      ⟨7, false, {}⟩ [⟨0, fun _ => ⟨⟨0⟩⟩⟩, ⟨1, fun _ => ⟨⟨0⟩⟩⟩, ⟨2, fun _ => ⟨⟨0⟩⟩⟩]) ∧
    NoUsageOnlyAfterEarlierFrame (runFrames GBuffer.importRenderTargets
      ⟨fun i => 10 + i, {}, {}⟩ [⟨0, fun _ => ⟨⟨0⟩⟩⟩, ⟨1, fun _ => ⟨⟨0⟩⟩⟩, ⟨2, fun _ => ⟨⟨0⟩⟩⟩]) ∧
    NoUsageOnlyAfterEarlierFrame (runFrames RtShadows.populateRenderGraphImports
      ⟨20, fun i => 30 + i, false, {}, {}, {}⟩
      [⟨0, fun _ => ⟨⟨0⟩⟩⟩, ⟨1, fun _ => ⟨⟨0⟩⟩⟩, ⟨2, fun _ => ⟨⟨0⟩⟩⟩]) ∧
    runFrames GBuffer.importRenderTargets
      ⟨fun i => 10 + i, {}, {}⟩ [⟨0, fun _ => ⟨⟨0⟩⟩⟩, ⟨1, fun _ => ⟨⟨0⟩⟩⟩, ⟨2, fun _ => ⟨⟨0⟩⟩⟩]
      = [[⟨10, some .kNone⟩, ⟨11, some .kSampledFragment⟩],
         [⟨11, some .kNone⟩, ⟨10, none⟩],
         [⟨10, some .kNone⟩, ⟨11, none⟩]] :=
  ⟨((imports_without_usage_follow_explicit_import _).1 ⟨7, false, {}⟩ rfl).1,
   ((imports_without_usage_follow_explicit_import _).2.1 ⟨fun i => 10 + i, {}, {}⟩
      (by decide)).1,
   ((imports_without_usage_follow_explicit_import _).2.2
      ⟨20, fun i => 30 + i, false, {}, {}, {}⟩ rfl).1,
   by decide⟩

/-! ### Point lights -/

/-- In every outcome of sorting with `pointLightLess`, no light that casts shadows is placed
before a light that does not: the lights without shadows come first. -/
theorem pointLights_sorted_shadowless_first (input out : List PointLightQueueElement)
    (h : StdSortResult pointLightLess input out) :
    out.Pairwise (fun x y => ¬ (x.hasShadow = true ∧ y.hasShadow = false)) := by
  refine h.2.imp ?_
  intro x y hxy hcontra
  obtain ⟨hx, hy⟩ := hcontra
  simp [pointLightLess, hx, hy] at hxy

/-- C10 (evaluation at the failing input): for the queue holding a shadow casting point light
(uuid 1) and a point light without shadows (uuid 2), the only outcome of the sort puts the light
without shadows first: the order that puts the shadow caster first is not a sorted order for the
comparison the code passes to `std::sort`. -/
theorem pointLights_shadow_caster_sorted_last :
    (⟨1, [5, 5, 5, 5, 5, 5]⟩ : PointLightQueueElement).hasShadow = true ∧
    (⟨2, [0, 0, 0, 0, 0, 0]⟩ : PointLightQueueElement).hasShadow = false ∧
    StdSortResult pointLightLess
      [⟨1, [5, 5, 5, 5, 5, 5]⟩, ⟨2, [0, 0, 0, 0, 0, 0]⟩]
      [⟨2, [0, 0, 0, 0, 0, 0]⟩, ⟨1, [5, 5, 5, 5, 5, 5]⟩] ∧
    ¬ StdSortResult pointLightLess
      [⟨1, [5, 5, 5, 5, 5, 5]⟩, ⟨2, [0, 0, 0, 0, 0, 0]⟩]
      [⟨1, [5, 5, 5, 5, 5, 5]⟩, ⟨2, [0, 0, 0, 0, 0, 0]⟩] := by
  decide

/-! ### Deduplication of render targets -/

namespace RenderGraphDescription

theorem findInternalRenderTarget_append_of_some {I : Type} (hash : Nat) :
    ∀ (l l' : List (RT I)) (i : Nat), findInternalRenderTarget hash l = some i →
      findInternalRenderTarget hash (l ++ l') = some i := by
  intro l
  induction l with
  | nil => intro l' i h; simp [findInternalRenderTarget] at h
  | cons rt rest ih =>
    intro l' i h
    rw [List.cons_append, findInternalRenderTarget]
    rw [findInternalRenderTarget] at h
    split at h
    · rename_i hc
      rw [if_pos hc]
      exact h
    · rename_i hc
      rw [if_neg hc]
      cases hrest : findInternalRenderTarget hash rest with
      | none => rw [hrest] at h; simp at h
      | some j =>
        rw [hrest] at h
        rw [ih l' j hrest]
        exact h

theorem findInternalRenderTarget_append_new {I : Type} (hash : Nat) (info : Option I) :
    ∀ (l : List (RT I)), findInternalRenderTarget hash l = none →
      findInternalRenderTarget hash (l ++ [{ m_initInfo := info, m_hash := hash }])
        = some l.length := by
  intro l
  induction l with
  | nil => intro _; simp [findInternalRenderTarget]
  | cons rt rest ih =>
    intro h
    rw [List.cons_append, findInternalRenderTarget]
    rw [findInternalRenderTarget] at h
    split at h
    · simp at h
    · rename_i hc
      rw [if_neg hc]
      cases hrest : findInternalRenderTarget hash rest with
      | none => rw [ih hrest]; simp
      | some j => rw [hrest] at h; simp at h

theorem newRenderTarget_found {I : Type} (g : RenderGraphDescription I)
    (d : RenderTargetDescription I) :
    findInternalRenderTarget d.m_hash (g.newRenderTarget d).2.m_renderTargets
      = some (g.newRenderTarget d).1.m_idx := by
  unfold newRenderTarget
  cases h : findInternalRenderTarget d.m_hash g.m_renderTargets with
  | some idx => simpa using h
  | none => simpa using findInternalRenderTarget_append_new d.m_hash _ _ h

theorem applyOp_found {I : Type} (hash i : Nat) (g : RenderGraphDescription I)
    (op : RenderTargetOp I)
    (h : findInternalRenderTarget hash g.m_renderTargets = some i) :
    findInternalRenderTarget hash (g.applyOp op).m_renderTargets = some i := by
  cases op with
  | newRenderTarget initInf =>
    simp only [applyOp, newRenderTarget]
    cases h' : findInternalRenderTarget initInf.m_hash g.m_renderTargets with
    | some idx => simpa using h
    | none => simpa using findInternalRenderTarget_append_of_some hash _ _ i h
  | importRenderTarget tex usage =>
    simpa [applyOp, importRenderTarget] using findInternalRenderTarget_append_of_some hash _ _ i h
  | importRenderTargetNoUsage tex =>
    simpa [applyOp, importRenderTargetNoUsage] using
      findInternalRenderTarget_append_of_some hash _ _ i h

theorem applyOps_found {I : Type} (hash i : Nat) (ops : List (RenderTargetOp I)) :
    ∀ (g : RenderGraphDescription I),
      findInternalRenderTarget hash g.m_renderTargets = some i →
      findInternalRenderTarget hash (g.applyOps ops).m_renderTargets = some i := by
  induction ops with
  | nil => intro g h; simpa [applyOps] using h
  | cons op ops ih =>
    intro g h
    simp only [applyOps, List.foldl_cons]
    exact ih (g.applyOp op) (applyOp_found hash i g op h)

end RenderGraphDescription

/-- C5: for every `RenderGraphDescription` `g`, every `RenderTargetDescription` `d` (whatever hash
`bake` gave it) and every sequence `ops` of other calls made on the description in between, the
second call of `newRenderTarget d` returns the handle the first call returned, and it adds no
render target. -/
theorem newRenderTarget_twice_same_handle {I : Type}
    (g : RenderGraphDescription I) (d : RenderTargetDescription I)
    (ops : List (RenderGraphDescription.RenderTargetOp I)) :
    (((g.newRenderTarget d).2.applyOps ops).newRenderTarget d).1 = (g.newRenderTarget d).1 ∧
    (((g.newRenderTarget d).2.applyOps ops).newRenderTarget d).2
      = (g.newRenderTarget d).2.applyOps ops := by
  have h := RenderGraphDescription.applyOps_found d.m_hash _ ops _
    (RenderGraphDescription.newRenderTarget_found g d)
  generalize (g.newRenderTarget d).2.applyOps ops = g2 at h
  generalize (g.newRenderTarget d).1 = h1 at h
  unfold RenderGraphDescription.newRenderTarget
  rw [h]
  exact ⟨rfl, rfl⟩

/-! ### Batches -/

theorem batchIndexOf_append_of_some (p : Nat) :
    ∀ (l l' : List (List Nat)) (i : Nat), batchIndexOf p l = some i →
      batchIndexOf p (l ++ l') = some i := by
  intro l
  induction l with
  | nil => intro l' i h; simp [batchIndexOf] at h
  | cons b rest ih =>
    intro l' i h
    rw [List.cons_append, batchIndexOf]
    rw [batchIndexOf] at h
    by_cases hp : p ∈ b
    · rw [if_pos hp] at h ⊢
      exact h
    · rw [if_neg hp] at h ⊢
      cases hrest : batchIndexOf p rest with
      | none => rw [hrest] at h; simp at h
      | some j => rw [hrest] at h; rw [ih l' j hrest]; exact h

theorem batchIndexOf_append_of_none (p : Nat) :
    ∀ (l l' : List (List Nat)), batchIndexOf p l = none →
      batchIndexOf p (l ++ l') = (batchIndexOf p l').map (· + l.length) := by
  intro l
  induction l with
  | nil => intro l' _; simp
  | cons b rest ih =>
    intro l' h
    rw [List.cons_append, batchIndexOf]
    rw [batchIndexOf] at h
    by_cases hp : p ∈ b
    · rw [if_pos hp] at h; simp at h
    · rw [if_neg hp] at h ⊢
      cases hrest : batchIndexOf p rest with
      | none =>
        rw [ih l' hrest]
        cases batchIndexOf p l' <;> simp [Nat.add_assoc]
      | some j => rw [hrest] at h; simp at h

theorem batchIndexOf_lt_length (p : Nat) :
    ∀ (l : List (List Nat)) (i : Nat), batchIndexOf p l = some i → i < l.length := by
  intro l
  induction l with
  | nil => intro i h; simp [batchIndexOf] at h
  | cons b rest ih =>
    intro i h
    rw [batchIndexOf] at h
    by_cases hp : p ∈ b
    · rw [if_pos hp] at h
      simp at h
      simp [← h]
    · rw [if_neg hp] at h
      cases hrest : batchIndexOf p rest with
      | none => rw [hrest] at h; simp at h
      | some j =>
        rw [hrest] at h
        simp at h
        have := ih j hrest
        simp only [List.length_cons]
        omega

theorem batchIndexOf_eq_none_iff (p : Nat) :
    ∀ (l : List (List Nat)), batchIndexOf p l = none ↔ p ∉ l.flatten := by
  intro l
  induction l with
  | nil => simp [batchIndexOf]
  | cons b rest ih =>
    rw [batchIndexOf, List.flatten_cons, List.mem_append]
    by_cases hp : p ∈ b
    · simp [hp]
    · simp [hp, ih]

theorem batchIndexOf_isSome_of_mem (p : Nat) (l : List (List Nat)) (h : p ∈ l.flatten) :
    ∃ i, batchIndexOf p l = some i := by
  cases hidx : batchIndexOf p l with
  | none => exact absurd h ((batchIndexOf_eq_none_iff p l).mp hidx)
  | some i => exact ⟨i, rfl⟩

theorem batchIndexOf_singleton_self (p : Nat) (b : List Nat) (h : p ∈ b) :
    batchIndexOf p [b] = some 0 := by
  simp [batchIndexOf, h]

theorem batchIndexOf_extend_last (x k i : Nat) (dl : List (List Nat)) (cur : List Nat)
    (h : batchIndexOf x (dl ++ [cur]) = some i) :
    batchIndexOf x (dl ++ [cur ++ [k]]) = some i := by
  cases hdl : batchIndexOf x dl with
  | some i' =>
    rw [batchIndexOf_append_of_some x dl _ i' hdl] at h
    rw [batchIndexOf_append_of_some x dl _ i' hdl]
    exact h
  | none =>
    rw [batchIndexOf_append_of_none x dl _ hdl] at h
    rw [batchIndexOf_append_of_none x dl _ hdl]
    by_cases hx : x ∈ cur
    · rw [batchIndexOf_singleton_self x cur hx] at h
      rw [batchIndexOf_singleton_self x (cur ++ [k]) (List.mem_append_left _ hx)]
      exact h
    · simp [batchIndexOf, hx] at h

theorem batchPrecedes_iff (batches : List (List Nat)) (a b : Nat) :
    batchPrecedes batches a b = true ↔
      ∃ i j, batchIndexOf a batches = some i ∧ batchIndexOf b batches = some j ∧ i < j := by
  unfold batchPrecedes
  cases batchIndexOf a batches <;> cases batchIndexOf b batches <;> simp

namespace RenderGraph

theorem addPassToBatches_spec (deps : List Nat) (batches : List (List Nat)) (k : Nat)
    (hflat : batches.flatten = List.range k) (hdeps : ∀ q ∈ deps, q < k) :
    (addPassToBatches deps batches k).flatten = List.range (k + 1) ∧
    (∀ x y, batchPrecedes batches x y = true →
      batchPrecedes (addPassToBatches deps batches k) x y = true) ∧
    (∀ q ∈ deps, batchPrecedes (addPassToBatches deps batches k) q k = true) := by
  have hk : batchIndexOf k batches = none := by
    rw [batchIndexOf_eq_none_iff, hflat]
    simp
  have hq : ∀ q ∈ deps, ∃ i, batchIndexOf q batches = some i := by
    intro q hqd
    apply batchIndexOf_isSome_of_mem
    rw [hflat]
    exact List.mem_range.mpr (hdeps q hqd)
  unfold addPassToBatches
  cases hlast : batches.getLast? with
  | none =>
    have hnil : batches = [] := List.getLast?_eq_none_iff.mp hlast
    subst hnil
    have hk0 : k = 0 := by
      cases k with
      | zero => rfl
      | succ k => simp [List.range_succ] at hflat
    subst hk0
    refine ⟨by simp [List.range_succ], ?_, ?_⟩
    · intro x y h
      simp [batchPrecedes, batchIndexOf] at h
    · intro q hqd
      exact absurd (hdeps q hqd) (Nat.not_lt_zero q)
  | some cur =>
    have hsplit : batches.dropLast ++ [cur] = batches :=
      List.dropLast_append_getLast? cur hlast
    generalize batches.dropLast = dl at hsplit
    subst hsplit
    simp only
    split
    · -- a dependency is not in an earlier batch: a new batch starts
      refine ⟨?_, ?_, ?_⟩
      · rw [List.flatten_append, hflat, List.range_succ]
        simp
      · intro x y h
        obtain ⟨i, j, hi, hj, hij⟩ := (batchPrecedes_iff _ x y).mp h
        exact (batchPrecedes_iff _ x y).mpr
          ⟨i, j, batchIndexOf_append_of_some x _ _ i hi,
            batchIndexOf_append_of_some y _ _ j hj, hij⟩
      · intro q hqd
        obtain ⟨i, hi⟩ := hq q hqd
        refine (batchPrecedes_iff _ q k).mpr
          ⟨i, (dl ++ [cur]).length, batchIndexOf_append_of_some q _ _ i hi, ?_,
            batchIndexOf_lt_length q _ i hi⟩
        rw [batchIndexOf_append_of_none k _ _ hk,
          batchIndexOf_singleton_self k [k] (List.mem_singleton.mpr rfl)]
        simp
    · -- every dependency is in an earlier batch: the pass joins the current batch
      rename_i hmet
      have hkdl : batchIndexOf k dl = none := by
        rw [batchIndexOf_eq_none_iff]
        intro hmem
        have : k ∈ (dl ++ [cur]).flatten := by
          rw [List.flatten_append]
          exact List.mem_append_left _ hmem
        rw [hflat] at this
        simp at this
      refine ⟨?_, ?_, ?_⟩
      · rw [List.range_succ, ← hflat]
        simp [List.flatten_append]
      · intro x y h
        obtain ⟨i, j, hi, hj, hij⟩ := (batchPrecedes_iff _ x y).mp h
        exact (batchPrecedes_iff _ x y).mpr
          ⟨i, j, batchIndexOf_extend_last x k i dl cur hi,
            batchIndexOf_extend_last y k j dl cur hj, hij⟩
      · intro q hqd
        have hqdl : q ∈ dl.flatten := by
          simp only [passHasUnmetDependencies, List.any_eq_true, Bool.not_eq_true,
            Bool.not_eq_eq_eq_not, Bool.not_true, not_exists, not_and] at hmet
          have h1 := hmet q hqd
          simp only [Bool.not_eq_false, List.any_eq_true] at h1
          obtain ⟨b, hb, hqb⟩ := h1
          exact List.mem_flatten.mpr ⟨b, hb, by simpa using hqb⟩
        obtain ⟨i, hi⟩ := batchIndexOf_isSome_of_mem q dl hqdl
        refine (batchPrecedes_iff _ q k).mpr
          ⟨i, dl.length, batchIndexOf_append_of_some q _ _ i hi, ?_,
            batchIndexOf_lt_length q _ i hi⟩
        rw [batchIndexOf_append_of_none k _ _ hkdl,
          batchIndexOf_singleton_self k (cur ++ [k])
            (List.mem_append_right _ (List.mem_singleton.mpr rfl))]
        simp

end RenderGraph

namespace RenderGraph

theorem batchesAfter_succ {S : Type} (overlaps : S → S → Bool)
    (passes : List (PassDescription S)) (k : Nat) :
    batchesAfter overlaps passes (k + 1)
      = addPassToBatches (dependsOn overlaps passes k) (batchesAfter overlaps passes k) k := by
  simp [batchesAfter, List.range_succ, List.foldl_append]

theorem mem_dependsOn {S : Type} (overlaps : S → S → Bool) (passes : List (PassDescription S))
    (p q : Nat) :
    q ∈ dependsOn overlaps passes p ↔
      q < p ∧ passADependsOnB overlaps (passes.getD p []) (passes.getD q []) = true := by
  simp [dependsOn, List.mem_filter, List.mem_range]

theorem batchesAfter_invariant {S : Type} (overlaps : S → S → Bool)
    (passes : List (PassDescription S)) :
    ∀ k, (batchesAfter overlaps passes k).flatten = List.range k ∧
      ∀ p, p < k → ∀ q ∈ dependsOn overlaps passes p,
        batchPrecedes (batchesAfter overlaps passes k) q p = true := by
  intro k
  induction k with
  | zero => exact ⟨by simp [batchesAfter], fun p hp => absurd hp (Nat.not_lt_zero p)⟩
  | succ k ih =>
    obtain ⟨hflat, hord⟩ := ih
    have hstep := addPassToBatches_spec (dependsOn overlaps passes k)
      (batchesAfter overlaps passes k) k hflat
      (fun q hq => ((mem_dependsOn overlaps passes k q).mp hq).1)
    rw [batchesAfter_succ]
    refine ⟨hstep.1, ?_⟩
    intro p hp q hq
    rcases Nat.lt_succ_iff_lt_or_eq.mp hp with hlt | heq
    · exact hstep.2.1 q p (hord p hlt q hq)
    · subst heq
      exact hstep.2.2 q hq

theorem passADependsOnB_of_readsWhatWrites {S : Type} (overlaps : S → S → Bool)
    (b a : PassDescription S) (h : readsWhatWrites overlaps b a = true) :
    passADependsOnB overlaps b a = true := by
  simp only [readsWhatWrites, List.any_eq_true, Bool.and_eq_true] at h
  obtain ⟨db, hdb, da, hda, hw, ⟨hkind, hhandle⟩, hov⟩ := h
  simp only [passADependsOnB, List.any_eq_true, Bool.and_eq_true, Bool.or_eq_true]
  exact ⟨db, hdb, da, hda, ⟨⟨hkind, hhandle⟩, Or.inr hw⟩, hov⟩

end RenderGraph

/-- The batches produced by `compileNewGraph` hold every pass of the description exactly once,
in declaration order. -/
theorem compileNewGraph_flatten {S : Type} (overlaps : S → S → Bool)
    (passes : List (PassDescription S)) :
    (RenderGraph.compileNewGraph overlaps passes).flatten = List.range passes.length :=
  (RenderGraph.batchesAfter_invariant overlaps passes passes.length).1

/-- C4 (as amended): in the batch list produced by `compileNewGraph`, for every pair of passes
`a` and `b` where `a` is declared before `b` (the ordered pairs that step 1 of section 4.2
examines, "A before B in the list"), `b` reads a sub-resource that `a` writes and the two
sub-resources overlap, the batch containing `a` comes strictly before the batch containing
`b`. -/
theorem compileNewGraph_writer_before_later_reader {S : Type} (overlaps : S → S → Bool)
    (passes : List (PassDescription S)) (a b : Nat) (hab : a < b) (hb : b < passes.length)
    (hrw : readsWhatWrites overlaps (passes.getD b []) (passes.getD a []) = true) :
    batchPrecedes (RenderGraph.compileNewGraph overlaps passes) a b = true :=
  (RenderGraph.batchesAfter_invariant overlaps passes passes.length).2 b hb a
    ((RenderGraph.mem_dependsOn overlaps passes b a).mpr
      ⟨hab, RenderGraph.passADependsOnB_of_readsWhatWrites overlaps _ _ hrw⟩)

/-- Witness for C4 (as amended): pass 0 writes bytes `[0, 16)` of buffer 0 and pass 1 reads
them. -/
theorem compileNewGraph_writer_before_later_reader_witness :
    batchPrecedes (RenderGraph.compileNewGraph bufferSubresourceOverlaps
      [[⟨.kBuffer, 0, true, (0, 16)⟩], [⟨.kBuffer, 0, false, (0, 16)⟩]]) 0 1 = true :=
  compileNewGraph_writer_before_later_reader bufferSubresourceOverlaps
    [[⟨.kBuffer, 0, true, (0, 16)⟩], [⟨.kBuffer, 0, false, (0, 16)⟩]] 0 1
    (by decide) (by decide) (by decide)

/-- C4 (counterexample to the claim as stated): pass 0 writes bytes `[0, 16)` of buffer 0 and
reads bytes `[0, 16)` of buffer 1; pass 1 writes those bytes of buffer 1 and reads those of
buffer 0. Pass 1 reads what pass 0 writes and pass 0 reads what pass 1 writes, so the claim asks
for the batch of pass 0 to come strictly before the batch of pass 1 and for the batch of pass 1
to come strictly before the batch of pass 0. No batch list does both, whatever produced it. The
forward scan puts the passes in the batches `[[0], [1]]`, in the order of their declaration: the
batch of the writer pass 1 does not come before the batch of its reader pass 0. -/
theorem compileNewGraph_mutual_readers_unordered :
    readsWhatWrites bufferSubresourceOverlaps
      [⟨.kBuffer, 1, true, (0, 16)⟩, ⟨.kBuffer, 0, false, (0, 16)⟩]
      [⟨.kBuffer, 0, true, (0, 16)⟩, ⟨.kBuffer, 1, false, (0, 16)⟩] = true ∧
    readsWhatWrites bufferSubresourceOverlaps
      [⟨.kBuffer, 0, true, (0, 16)⟩, ⟨.kBuffer, 1, false, (0, 16)⟩]
      [⟨.kBuffer, 1, true, (0, 16)⟩, ⟨.kBuffer, 0, false, (0, 16)⟩] = true ∧
    (∀ batches : List (List Nat),
      ¬ (batchPrecedes batches 0 1 = true ∧ batchPrecedes batches 1 0 = true)) ∧
    RenderGraph.compileNewGraph bufferSubresourceOverlaps
      [[⟨.kBuffer, 0, true, (0, 16)⟩, ⟨.kBuffer, 1, false, (0, 16)⟩],
       [⟨.kBuffer, 1, true, (0, 16)⟩, ⟨.kBuffer, 0, false, (0, 16)⟩]] = [[0], [1]] ∧
    batchPrecedes (RenderGraph.compileNewGraph bufferSubresourceOverlaps
      [[⟨.kBuffer, 0, true, (0, 16)⟩, ⟨.kBuffer, 1, false, (0, 16)⟩],
       [⟨.kBuffer, 1, true, (0, 16)⟩, ⟨.kBuffer, 0, false, (0, 16)⟩]]) 1 0 = false := by
  refine ⟨by decide, by decide, ?_, by decide, by decide⟩
  intro batches h
  obtain ⟨i, j, hi, hj, hij⟩ := (batchPrecedes_iff batches 0 1).mp h.1
  obtain ⟨j', i', hj', hi', hji⟩ := (batchPrecedes_iff batches 1 0).mp h.2
  rw [hi] at hi'
  rw [hj] at hj'
  injection hi' with hi'
  injection hj' with hj'
  omega

/-- A reader declared before the writer: pass 0 reads bytes `[0, 16)` of buffer 0 and pass 1,
declared after it, writes them. The forward scan keeps the order of declaration, the batches are
`[[0], [1]]`, and the batch of the writer does not come before the batch of the reader. -/
theorem compileNewGraph_writer_after_earlier_reader :
    readsWhatWrites bufferSubresourceOverlaps
      [⟨.kBuffer, 0, false, (0, 16)⟩] [⟨.kBuffer, 0, true, (0, 16)⟩] = true ∧
    RenderGraph.compileNewGraph bufferSubresourceOverlaps
      [[⟨.kBuffer, 0, false, (0, 16)⟩], [⟨.kBuffer, 0, true, (0, 16)⟩]] = [[0], [1]] ∧
    batchPrecedes (RenderGraph.compileNewGraph bufferSubresourceOverlaps
      [[⟨.kBuffer, 0, false, (0, 16)⟩], [⟨.kBuffer, 0, true, (0, 16)⟩]]) 1 0 = false := by
  decide

/-! ### Spot lights -/

theorem spotLightLess_total (a b : SpotLightQueueElement) :
    spotLightLess b a = false ∨ spotLightLess a b = false := by
  unfold spotLightLess
  cases a.hasShadow <;> cases b.hasShadow <;> simp <;> omega

theorem spotLightLess_trans (a b c : SpotLightQueueElement)
    (hab : spotLightLess b a = false) (hbc : spotLightLess c b = false) :
    spotLightLess c a = false := by
  unfold spotLightLess at *
  cases ha : a.hasShadow <;> cases hb : b.hasShadow <;> cases hc : c.hasShadow <;>
    simp [ha, hb, hc] at hab hbc ⊢ <;> omega

/-- The sort of the spot lights has an outcome for every queue: the comparison is a strict weak
order, and insertion sort with it yields a sorted rearrangement. -/
theorem spotLights_sort_exists (input : List SpotLightQueueElement) :
    ∃ out, StdSortResult spotLightLess input out := by
  haveI : IsTotal SpotLightQueueElement (fun x y => spotLightLess y x = false) :=
    ⟨spotLightLess_total⟩
  haveI : IsTrans SpotLightQueueElement (fun x y => spotLightLess y x = false) :=
    ⟨spotLightLess_trans⟩
  exact ⟨input.insertionSort (fun x y => spotLightLess y x = false),
    List.perm_insertionSort _ input, List.sorted_insertionSort _ input⟩

/-- C11: in every outcome of sorting `m_spotLights` with the comparison of
`CombineResultsTask::combine`, no spot light without shadows is placed before one that casts
shadows (shadow casters come first), and two lights with equal shadow status are in ascending
UUID order. -/
theorem spotLights_sorted_shadow_casters_first (input out : List SpotLightQueueElement)
    (h : StdSortResult spotLightLess input out) :
    out.Pairwise (fun x y => ¬ (x.hasShadow = false ∧ y.hasShadow = true)) ∧
    out.Pairwise (fun x y => x.hasShadow = y.hasShadow → x.m_uuid ≤ y.m_uuid) := by
  constructor
  · refine h.2.imp ?_
    intro x y hxy hcontra
    obtain ⟨hx, hy⟩ := hcontra
    simp [spotLightLess, hx, hy] at hxy
  · refine h.2.imp ?_
    intro x y hxy heq
    simp [spotLightLess, heq] at hxy
    exact hxy

/-- Witness for C11: a queue of four spot lights and its sorted order. -/
theorem spotLights_sorted_shadow_casters_first_witness :
    List.Pairwise (fun x y => ¬ (x.hasShadow = false ∧ y.hasShadow = true))
      ([⟨3, 9⟩, ⟨7, 9⟩, ⟨2, 0⟩, ⟨5, 0⟩] : List SpotLightQueueElement) ∧
    List.Pairwise (fun x y => x.hasShadow = y.hasShadow → x.m_uuid ≤ y.m_uuid)
      ([⟨3, 9⟩, ⟨7, 9⟩, ⟨2, 0⟩, ⟨5, 0⟩] : List SpotLightQueueElement) :=
  spotLights_sorted_shadow_casters_first [⟨5, 0⟩, ⟨7, 9⟩, ⟨2, 0⟩, ⟨3, 9⟩]
    [⟨3, 9⟩, ⟨7, 9⟩, ⟨2, 0⟩, ⟨5, 0⟩] (by decide)

/-! ### Level of detail -/

/-- C17: `computeLod` returns 2 for every negative distance; for a distance `d` that is not
negative it returns 0 if `d ≤ lodDistance 0`, otherwise 1 if `d ≤ lodDistance 1`, otherwise 2;
the result is below `kMaxLodCount`; and over distances that are not negative the result does not
decrease when the distance grows. -/
theorem computeLod_spec {α : Type} [LinearOrder α] [Zero α] (lodDistance : Nat → α) (d : α) :
    (d < 0 → computeLod lodDistance d = 2) ∧
    (0 ≤ d → d ≤ lodDistance 0 → computeLod lodDistance d = 0) ∧
    (0 ≤ d → ¬ d ≤ lodDistance 0 → d ≤ lodDistance 1 → computeLod lodDistance d = 1) ∧
    (0 ≤ d → ¬ d ≤ lodDistance 0 → ¬ d ≤ lodDistance 1 → computeLod lodDistance d = 2) ∧
    computeLod lodDistance d < kMaxLodCount ∧
    (∀ d' : α, 0 ≤ d → d ≤ d' → computeLod lodDistance d ≤ computeLod lodDistance d') := by
  refine ⟨?_, ?_, ?_, ?_, ?_, ?_⟩
  · intro h
    simp [computeLod, h]
  · intro h0 h1
    simp [computeLod, not_lt.mpr h0, h1]
  · intro h0 h1 h2
    simp [computeLod, not_lt.mpr h0, h1, h2]
  · intro h0 h1 h2
    simp [computeLod, not_lt.mpr h0, h1, h2]
  · unfold computeLod kMaxLodCount
    split_ifs <;> omega
  · intro d' h0 hdd'
    have h0' : ¬ d' < 0 := not_lt.mpr (le_trans h0 hdd')
    unfold computeLod
    rw [if_neg (not_lt.mpr h0), if_neg h0']
    by_cases h1 : d' ≤ lodDistance 0
    · rw [if_pos h1, if_pos (le_trans hdd' h1)]
    · rw [if_neg h1]
      by_cases h2 : d' ≤ lodDistance 1
      · rw [if_pos h2]
        split_ifs <;> first | omega | exact absurd (le_trans hdd' h2) (by assumption)
      · rw [if_neg h2]
        split_ifs <;> omega

/-- Witness for C17: LOD distances 20 and 40, at the distances -1, 20, 30 and 50. -/
theorem computeLod_spec_witness :
    computeLod (fun i => if i = 0 then (20 : Int) else 40) (-1) = 2 ∧
    computeLod (fun i => if i = 0 then (20 : Int) else 40) 20 = 0 ∧
    computeLod (fun i => if i = 0 then (20 : Int) else 40) 30 = 1 ∧
    computeLod (fun i => if i = 0 then (20 : Int) else 40) 50 = 2 ∧
    computeLod (fun i => if i = 0 then (20 : Int) else 40) 30
      ≤ computeLod (fun i => if i = 0 then (20 : Int) else 40) 50 :=
  ⟨(computeLod_spec _ (-1)).1 (by decide),
   (computeLod_spec _ 20).2.1 (by decide) (by decide),
   (computeLod_spec _ 30).2.2.1 (by decide) (by decide) (by decide),
   (computeLod_spec _ 50).2.2.2.1 (by decide) (by decide) (by decide),
   (computeLod_spec _ 30).2.2.2.2.2 50 (by decide) (by decide)⟩

/-! ### Halton jitter -/

theorem mirroredDigitsSum_cons (b k d : Nat) (ds : List Nat) :
    mirroredDigitsSum b k (d :: ds)
      = (d : ℚ) / (b : ℚ) ^ (k + 1) + mirroredDigitsSum b (k + 1) ds := by
  simp [mirroredDigitsSum]

theorem haltonLoop_eq (b : Nat) (hb : 1 < b) :
    ∀ (fuel index k : Nat) (result : ℚ), index < b ^ fuel →
      haltonLoop b (1 / (b : ℚ)) fuel index ((1 / (b : ℚ)) ^ (k + 1)) result
        = some (result + mirroredDigitsSum b k (Nat.digits b index)) := by
  intro fuel
  induction fuel with
  | zero =>
    intro index k result h
    have h0 : index = 0 := by simpa using h
    subst h0
    simp [haltonLoop, mirroredDigitsSum]
  | succ fuel ih =>
    intro index k result h
    rcases Nat.eq_zero_or_pos index with h0 | hpos
    · subst h0
      simp [haltonLoop, mirroredDigitsSum]
    · have hdiv : index / b < b ^ fuel :=
        Nat.div_lt_of_lt_mul (by rw [← Nat.pow_succ']; exact h)
      rw [haltonLoop, if_pos hpos, ← pow_succ, ih (index / b) (k + 1) _ hdiv,
        Nat.digits_def' hb hpos, mirroredDigitsSum_cons]
      congr 1
      rw [add_assoc]
      congr 1
      rw [one_div, inv_pow, div_eq_mul_inv]

theorem mirroredDigitsSum_bounds (b : Nat) (hb : 1 < b) :
    ∀ (ds : List Nat) (k : Nat), (∀ d ∈ ds, d < b) →
      0 ≤ mirroredDigitsSum b k ds ∧ mirroredDigitsSum b k ds ≤ 1 / (b : ℚ) ^ k := by
  have hbq : (0 : ℚ) < (b : ℚ) := by exact_mod_cast (by omega : 0 < b)
  intro ds
  induction ds with
  | nil =>
    intro k _
    simp only [mirroredDigitsSum, List.enumFrom_nil, List.map_nil, List.sum_nil]
    exact ⟨le_refl 0, by positivity⟩
  | cons d ds ih =>
    intro k hd
    obtain ⟨hlo, hhi⟩ := ih (k + 1) (fun x hx => hd x (List.mem_cons_of_mem d hx))
    have hdb : (d : ℚ) + 1 ≤ (b : ℚ) := by
      exact_mod_cast (hd d (List.mem_cons_self d ds) : d < b)
    have hd0 : (0 : ℚ) ≤ (d : ℚ) := by exact_mod_cast Nat.zero_le d
    have hpow : (0 : ℚ) < (b : ℚ) ^ (k + 1) := by positivity
    rw [mirroredDigitsSum_cons]
    constructor
    · have : (0 : ℚ) ≤ (d : ℚ) / (b : ℚ) ^ (k + 1) := div_nonneg hd0 (le_of_lt hpow)
      linarith
    · have h1 : (d : ℚ) / (b : ℚ) ^ (k + 1) + 1 / (b : ℚ) ^ (k + 1)
          ≤ (b : ℚ) / (b : ℚ) ^ (k + 1) := by
        rw [← add_div]
        exact div_le_div_of_nonneg_right hdb (le_of_lt hpow)
      have h2 : (b : ℚ) / (b : ℚ) ^ (k + 1) = 1 / (b : ℚ) ^ k := by
        rw [pow_succ]
        field_simp
        ring
      linarith

theorem radicalInverse_bounds (b n : Nat) (hb : 1 < b) :
    0 ≤ radicalInverse b n ∧ radicalInverse b n ≤ 1 := by
  have h := mirroredDigitsSum_bounds b hb (Nat.digits b n) 0
    (fun d hd => Nat.digits_lt_base hb hd)
  simpa [radicalInverse] using h

theorem generateJitter_of_index (index : Nat) (h : index < 2 ^ 32) :
    haltonLoop 2 (1 / 2) 32 index (1 / 2) 0 = some (radicalInverse 2 index) ∧
    haltonLoop 3 (1 / 3) 32 index (1 / 3) 0 = some (radicalInverse 3 index) := by
  have h3 : index < 3 ^ 32 := lt_trans h (by norm_num)
  have hx := haltonLoop_eq 2 (by norm_num) 32 index 0 0 h
  have hy := haltonLoop_eq 3 (by norm_num) 32 index 0 0 h3
  simp only [zero_add, pow_one, Nat.cast_ofNat] at hx hy
  exact ⟨hx, hy⟩

theorem sub_half_bounds (r : ℚ) (h : 0 ≤ r ∧ r ≤ 1) : -(1 / 2) ≤ r - 1 / 2 ∧ r - 1 / 2 ≤ 1 / 2 :=
  ⟨by linarith [h.1], by linarith [h.2]⟩

/-- C16: for every frame index both loops of `generateJitter` end within their 32 iterations and
the function returns a pair `(x, y)`; in exact arithmetic `x` is the base-2 and `y` the base-3
radical inverse of `frame + 1` taken modulo `2^32`, each minus one half, and both lie in
`[-1/2, 1/2]`. -/
theorem generateJitter_spec (frame : Nat) :
    ∃ x y : ℚ, generateJitter frame = some (x, y) ∧
      x = radicalInverse 2 ((frame + 1) % 2 ^ 32) - 1 / 2 ∧
      y = radicalInverse 3 ((frame + 1) % 2 ^ 32) - 1 / 2 ∧
      -(1 / 2) ≤ x ∧ x ≤ 1 / 2 ∧ -(1 / 2) ≤ y ∧ y ≤ 1 / 2 := by
  obtain ⟨hx, hy⟩ := generateJitter_of_index ((frame + 1) % 2 ^ 32) (Nat.mod_lt _ (by norm_num))
  have bx := sub_half_bounds _ (radicalInverse_bounds 2 ((frame + 1) % 2 ^ 32) (by norm_num))
  have by3 := sub_half_bounds _ (radicalInverse_bounds 3 ((frame + 1) % 2 ^ 32) (by norm_num))
  refine ⟨_, _, ?_, rfl, rfl, bx.1, bx.2, by3.1, by3.2⟩
  unfold generateJitter
  rw [hx, hy]

theorem haltonLoop_step (b : Nat) (ib : ℚ) (fuel index : Nat) (fr r : ℚ) (h : 0 < index) :
    haltonLoop b ib (fuel + 1) index fr r
      = haltonLoop b ib fuel (index / b) (fr * ib) (r + ((index % b : Nat) : ℚ) * fr) := by
  rw [haltonLoop, if_pos h]

theorem haltonLoop_index_zero (b : Nat) (ib : ℚ) (fuel : Nat) (fr r : ℚ) :
    haltonLoop b ib fuel 0 fr r = some r := by
  cases fuel <;> simp [haltonLoop]

/-- The jitter of frame 0 (index 1) is `(0, -1/6)` and the jitter of the last `U32` frame, whose
index wraps to 0, is `(-1/2, -1/2)`. -/
theorem generateJitter_examples :
    generateJitter 0 = some (0, -(1 / 6)) ∧
    generateJitter (2 ^ 32 - 1) = some (-(1 / 2), -(1 / 2)) := by
  have hx : haltonLoop 2 (1 / 2) 32 1 (1 / 2) 0 = some (1 / 2) := by
    rw [show (32 : Nat) = 31 + 1 from rfl, haltonLoop_step _ _ _ _ _ _ (by norm_num)]
    norm_num [haltonLoop_index_zero]
  have hy : haltonLoop 3 (1 / 3) 32 1 (1 / 3) 0 = some (1 / 3) := by
    rw [show (32 : Nat) = 31 + 1 from rfl, haltonLoop_step _ _ _ _ _ _ (by norm_num)]
    norm_num [haltonLoop_index_zero]
  constructor
  · have e : (0 + 1) % 2 ^ 32 = 1 := by norm_num
    unfold generateJitter
    rw [e, hx, hy]
    norm_num
  · have e : (2 ^ 32 - 1 + 1) % 2 ^ 32 = 0 := by norm_num
    unfold generateJitter
    rw [e, haltonLoop_index_zero, haltonLoop_index_zero]
    norm_num

/-! ### Command line of the glTF importer -/

theorem parseLoop_texrpathFound (P : NumberParsers) :
    ∀ (st : ParseState) (args : List String) (st' : ParseState),
      "-texrpath" ∉ args → parseLoop P st args = .ok st' →
      st'.texrpathFound = st.texrpathFound := by
  intro st args
  induction st, args using parseLoop.induct P <;> intro st' hmem hrun
  all_goals (try (first | rw [parseLoop] at hrun | unfold parseLoop at hrun))
  all_goals (try simp_all)

theorem parseLoop_isOk (P : NumberParsers) :
    ∀ (st : ParseState) (args : List String),
      (parseLoop P st args).isOk = completeOptions P args := by
  intro st args
  induction st, args using parseLoop.induct P
  all_goals (try (first | rw [parseLoop] | unfold parseLoop))
  all_goals (try (first | rw [completeOptions] | unfold completeOptions))
  all_goals (try simp_all [valueOptions, valueParses, Except.isOk, Except.toBool])

theorem parseLoop_stops (P : NumberParsers) (st : ParseState) (arg : String)
    (rest : List String)
    (h : arg ∉ documentedOptions ∨ (arg ∈ valueOptions ∧ rest = [])) :
    parseLoop P st (arg :: rest) = .error .kUserData := by
  unfold parseLoop
  rcases h with h | ⟨h, rfl⟩
  · simp only [documentedOptions, valueOptions, List.mem_cons, List.mem_singleton,
      List.not_mem_nil, or_false, not_or] at h
    simp [h]
  · simp only [valueOptions, List.mem_cons, List.mem_singleton, List.not_mem_nil,
      or_false] at h
    rcases h with h | h | h | h | h | h | h | h | h <;> subst h <;> simp

theorem parseLoop_stops_after_complete (P : NumberParsers) :
    ∀ (st : ParseState) (pre : List String), completeOptions P pre = true →
      ∀ (arg : String) (rest : List String),
        (arg ∉ documentedOptions ∨ (arg ∈ valueOptions ∧ rest = [])) →
        parseLoop P st (pre ++ arg :: rest) = .error .kUserData := by
  intro st pre
  induction st, pre using parseLoop.induct P <;> intro hpre arg rest hstop
  case case1 => exact parseLoop_stops P _ arg rest hstop
  all_goals (try (first | rw [completeOptions] at hpre | unfold completeOptions at hpre))
  all_goals (try simp only [List.cons_append])
  all_goals (try (first | rw [parseLoop] | unfold parseLoop))
  all_goals (try simp_all [valueOptions, valueParses, Except.isOk, Except.toBool])

/-- C13: given exactly the two positional arguments and no option, `parseCommandLineArgs`
succeeds and leaves the defaults of the usage text: optimize meshes and animations on, LOD count
1, LOD factor 0.25, light scale 1.0, import textures off, input `in_file`, out dir
`out_dir + "/"`, and `rpath` and `texrpath` equal to that out dir. And after every successful
parse of arguments that do not contain `-texrpath`, `m_texRpath` equals the final `m_rpath`. -/
theorem parseCommandLineArgs_two_positionals (P : NumberParsers) :
    (∀ prog inFile outDir : String,
      parseCommandLineArgs P [prog, inFile, outDir] {} = .ok
        { m_inputFname := inFile, m_outDir := outDir ++ "/", m_rpath := outDir ++ "/",
          m_texRpath := outDir ++ "/", m_optimizeMeshes := true, m_optimizeAnimations := true,
          m_importTextures := false, m_threadCount := kMaxU32, m_lodCount := 1,
          m_lodFactor := 1 / 4, m_lightIntensityScale := 1 }) ∧
    (∀ (argv : List String) (info info' : CmdLineArgs), "-texrpath" ∉ argv.drop 3 →
      parseCommandLineArgs P argv info = .ok info' → info'.m_texRpath = info'.m_rpath) := by
  constructor
  · intro prog inFile outDir
    simp [parseCommandLineArgs, parseLoop, finishParse]
  · intro argv info info' hmem hrun
    unfold parseCommandLineArgs at hrun
    split at hrun
    · exact absurd hrun (by simp)
    · split at hrun
      · exact absurd hrun (by simp)
      · rename_i st hst
        have hfound := parseLoop_texrpathFound P _ _ st hmem hst
        simp only at hfound
        have hinfo : info' = finishParse st := by
          injection hrun with h
          exact h.symm
        subst hinfo
        simp [finishParse, hfound]

/-- Witness for C13: `in out -rpath x`, without `-texrpath`. -/
theorem parseCommandLineArgs_two_positionals_witness :
    ({ m_inputFname := "in", m_outDir := "out/", m_rpath := "x/", m_texRpath := "x/" }
      : CmdLineArgs).m_texRpath
    = ({ m_inputFname := "in", m_outDir := "out/", m_rpath := "x/", m_texRpath := "x/" }
      : CmdLineArgs).m_rpath :=
  (parseCommandLineArgs_two_positionals digitParsers).2 ["prog", "in", "out", "-rpath", "x"] {}
    { m_inputFname := "in", m_outDir := "out/", m_rpath := "x/", m_texRpath := "x/" }
    (by decide) rfl

/-- C14: `parseCommandLineArgs` returns `Error::kUserData` when `argc < 3`; when, after the two
positionals and a sequence of complete options whose numeric values parse, the next argument,
which stands where an option is expected, is not one of the ten documented options; and when,
after such a sequence, a value-taking option is the last argument. It succeeds exactly when
`argc ≥ 3` and the arguments after the positionals are a sequence of complete options: each is
`-v` or a value-taking option followed by its value, every numeric value parsing. The arguments
are read in order: the argument that follows a value-taking option is its value, and the first
fault met decides the error, so the faults are stated after a prefix that parses. -/
theorem parseCommandLineArgs_errors (P : NumberParsers) (argv : List String)
    (info : CmdLineArgs) :
    (argv.length < 3 → parseCommandLineArgs P argv info = .error .kUserData) ∧
    (∀ (pre : List String) (arg : String) (rest : List String), 3 ≤ argv.length →
      argv.drop 3 = pre ++ arg :: rest → completeOptions P pre = true →
      arg ∉ documentedOptions → parseCommandLineArgs P argv info = .error .kUserData) ∧
    (∀ (pre : List String) (arg : String), 3 ≤ argv.length →
      argv.drop 3 = pre ++ [arg] → completeOptions P pre = true →
      arg ∈ valueOptions → parseCommandLineArgs P argv info = .error .kUserData) ∧
    ((parseCommandLineArgs P argv info).isOk = true ↔
      3 ≤ argv.length ∧ completeOptions P (argv.drop 3) = true) := by
  refine ⟨?_, ?_, ?_, ?_⟩
  · intro h
    simp [parseCommandLineArgs, h]
  · intro pre arg rest hlen hsplit hpre harg
    unfold parseCommandLineArgs
    rw [if_neg (by omega), hsplit,
      parseLoop_stops_after_complete P _ pre hpre arg rest (Or.inl harg)]
  · intro pre arg hlen hsplit hpre harg
    unfold parseCommandLineArgs
    rw [if_neg (by omega), hsplit,
      parseLoop_stops_after_complete P _ pre hpre arg [] (Or.inr ⟨harg, rfl⟩)]
  · unfold parseCommandLineArgs
    by_cases hlen : argv.length < 3
    · rw [if_pos hlen]
      simp [Except.isOk, Except.toBool]
      omega
    · rw [if_neg hlen]
      have h := parseLoop_isOk P
        { info := { info with m_inputFname := argv.getD 1 "", m_outDir := argv.getD 2 "" ++ "/" },
          rpathFound := false, texrpathFound := false } (argv.drop 3)
      rw [← h]
      have hlen' : 3 ≤ argv.length := by omega
      split <;> simp_all [Except.isOk, Except.toBool]

/-- Witness for C14: too few arguments; an unknown option after `-v`; `-j` without
a value after `-rpath x`; and a well-formed command line. -/
theorem parseCommandLineArgs_errors_witness :
    parseCommandLineArgs digitParsers ["prog", "in"] {} = .error .kUserData ∧
    parseCommandLineArgs digitParsers ["prog", "in", "out", "-v", "-bogus", "1"] {}
      = .error .kUserData ∧
    parseCommandLineArgs digitParsers ["prog", "in", "out", "-rpath", "x", "-j"] {}
      = .error .kUserData ∧
    (parseCommandLineArgs digitParsers ["prog", "in", "out", "-lod-count", "2", "-v"] {}).isOk
      = true :=
  ⟨(parseCommandLineArgs_errors digitParsers ["prog", "in"] {}).1 (by decide),
   (parseCommandLineArgs_errors digitParsers ["prog", "in", "out", "-v", "-bogus", "1"] {}).2.1
      ["-v"] "-bogus" ["1"] (by decide) rfl (by decide) (by decide),
   (parseCommandLineArgs_errors digitParsers ["prog", "in", "out", "-rpath", "x", "-j"] {}).2.2.1
      ["-rpath", "x"] "-j" (by decide) rfl (by decide) (by decide),
   (parseCommandLineArgs_errors digitParsers
      ["prog", "in", "out", "-lod-count", "2", "-v"] {}).2.2.2.mpr ⟨by decide, by decide⟩⟩

/-- C15 (counterexample to the claim as stated): `-lod-count 7` is accepted and leaves
`m_lodCount = 7`, a value outside `{1, 2, 3}`. -/
theorem parseCommandLineArgs_lodCount_seven :
    (parseCommandLineArgs digitParsers ["prog", "in", "out", "-lod-count", "7"] {}).toOption.map
      (fun info => info.m_lodCount) = some 7 := by
  decide

theorem parseLoop_lodCount_kept (P : NumberParsers) :
    ∀ (st : ParseState) (args : List String) (st' : ParseState),
      "-lod-count" ∉ args → parseLoop P st args = .ok st' →
      st'.info.m_lodCount = st.info.m_lodCount := by
  intro st args
  induction st, args using parseLoop.induct P <;> intro st' hmem hrun
  all_goals (try (first | rw [parseLoop] at hrun | unfold parseLoop at hrun))
  all_goals (try simp_all)

theorem parseLoop_lodCount_then (P : NumberParsers) (value : String) (count : Nat)
    (post : List String) (hparse : P.toNumberU32 value = .ok count)
    (hpost : completeOptions P post = true) (hlast : "-lod-count" ∉ post) :
    ∀ (st : ParseState) (pre : List String), completeOptions P pre = true →
      ∃ st', parseLoop P st (pre ++ "-lod-count" :: value :: post) = .ok st' ∧
        st'.info.m_lodCount = count := by
  intro st pre
  induction st, pre using parseLoop.induct P <;> intro hpre
  case case1 st =>
    have hok := parseLoop_isOk P { st with info := { st.info with m_lodCount := count } } post
    rw [hpost] at hok
    cases hrun : parseLoop P { st with info := { st.info with m_lodCount := count } } post with
    | error e => rw [hrun] at hok; simp [Except.isOk, Except.toBool] at hok
    | ok st' =>
      refine ⟨st', ?_, ?_⟩
      · simp [parseLoop, hparse, hrun]
      · exact parseLoop_lodCount_kept P _ post st' hlast hrun
  all_goals (try (first | rw [completeOptions] at hpre | unfold completeOptions at hpre))
  all_goals (try simp only [List.cons_append])
  all_goals (try (first | rw [parseLoop] | unfold parseLoop))
  all_goals (try simp_all [valueOptions, valueParses, Except.isOk, Except.toBool])

theorem finishParse_lodCount (st : ParseState) :
    (finishParse st).m_lodCount = st.info.m_lodCount := by
  unfold finishParse
  cases st.rpathFound <;> cases st.texrpathFound <;> rfl

/-- C15 (as amended): `parseCommandLineArgs` accepts the option `-lod-count` with every value
that `toNumber` parses as a `U32`, and stores that number in `m_lodCount`, whatever it is; no
range is checked. The option may stand anywhere after the two positionals: the arguments before
it and the arguments after its value are any sequences of complete options, and the number stays
in `m_lodCount` when no argument after the value is `-lod-count` again. -/
theorem parseCommandLineArgs_lodCount_stored (P : NumberParsers)
    (prog inFile outDir value : String) (pre post : List String) (count : Nat)
    (info : CmdLineArgs)
    (hpre : completeOptions P pre = true)
    (hpost : completeOptions P post = true)
    (hlast : "-lod-count" ∉ post)
    (hparse : P.toNumberU32 value = .ok count) :
    ∃ info', parseCommandLineArgs P
        (prog :: inFile :: outDir :: (pre ++ "-lod-count" :: value :: post)) info = .ok info' ∧
      info'.m_lodCount = count := by
  unfold parseCommandLineArgs
  rw [if_neg (by simp)]
  simp only [List.drop_succ_cons, List.drop_zero]
  obtain ⟨st', hrun, hcount⟩ := parseLoop_lodCount_then P value count post hparse hpost hlast
    { info := { info with
        m_inputFname :=
          (prog :: inFile :: outDir :: (pre ++ "-lod-count" :: value :: post)).getD 1 "",
        m_outDir :=
          (prog :: inFile :: outDir :: (pre ++ "-lod-count" :: value :: post)).getD 2 "" ++ "/" },
      rpathFound := false, texrpathFound := false } pre hpre
  rw [hrun]
  exact ⟨_, rfl, by rw [finishParse_lodCount, hcount]⟩

/-- Witness for C15 (as amended): the value 7, after `-v` and before `-j 2`. -/
theorem parseCommandLineArgs_lodCount_stored_witness :
    ∃ info', parseCommandLineArgs digitParsers
        ["prog", "in", "out", "-v", "-lod-count", "7", "-j", "2"] {} = .ok info' ∧
      info'.m_lodCount = 7 :=
  parseCommandLineArgs_lodCount_stored digitParsers "prog" "in" "out" "7" ["-v"] ["-j", "2"] 7 {}
    (by decide) (by decide) (by decide) rfl

/-! ### Shadow layers -/

/-- C18 (counterexample to the claim as stated): lights 1 and 2 get layers 0 and 1 in frame
`2^64 - 2`; in frame `2^64 - 1` light 1 is found in layer 0, whose `m_frameLastUsed` becomes
`kMaxU64`; the call for light 2 in that frame then takes layer 0 as if it were empty and rejects
its history, although layer 1 records light 2 with `m_frameLastUsed == crntFrame - 1`. -/
theorem findShadowLayer_sentinel_frame :
    NonDecreasingOncePerFrame
      [⟨2 ^ 64 - 2, 1⟩, ⟨2 ^ 64 - 2, 2⟩, ⟨2 ^ 64 - 1, 1⟩, ⟨2 ^ 64 - 1, 2⟩] ∧
    (runShadowLayerCalls (emptyShadowLayers 8 kMaxU64)
      [⟨2 ^ 64 - 2, 1⟩, ⟨2 ^ 64 - 2, 2⟩, ⟨2 ^ 64 - 1, 1⟩])[1]? = some ⟨2, 2 ^ 64 - 2⟩ ∧
    recordsPrevFrame ⟨2 ^ 64 - 1, 2⟩ ⟨2, 2 ^ 64 - 2⟩ ∧
    (findShadowLayer (runShadowLayerCalls (emptyShadowLayers 8 kMaxU64)
      [⟨2 ^ 64 - 2, 1⟩, ⟨2 ^ 64 - 2, 2⟩, ⟨2 ^ 64 - 1, 1⟩]) (2 ^ 64 - 1) 2).found = true ∧
    (findShadowLayer (runShadowLayerCalls (emptyShadowLayers 8 kMaxU64)
      [⟨2 ^ 64 - 2, 1⟩, ⟨2 ^ 64 - 2, 2⟩, ⟨2 ^ 64 - 1, 1⟩]) (2 ^ 64 - 1) 2).layerIdx = 0 ∧
    (findShadowLayer (runShadowLayerCalls (emptyShadowLayers 8 kMaxU64)
      [⟨2 ^ 64 - 2, 1⟩, ⟨2 ^ 64 - 2, 2⟩, ⟨2 ^ 64 - 1, 1⟩]) (2 ^ 64 - 1) 2).rejectHistoryBuffer
      = true := by
  unfold NonDecreasingOncePerFrame
  decide

theorem findShadowLayerLoop_skip (f u : Nat) :
    ∀ (pre rest : List ShadowLayer) (i nb nbf : Nat),
      (∀ x ∈ pre, x.m_lightUuid ≠ u ∧ x.m_frameLastUsed ≠ kMaxU64) →
      ∃ nb' nbf', findShadowLayerLoop f u (pre ++ rest) i nb nbf
        = { findShadowLayerLoop f u rest (i + pre.length) nb' nbf' with
            layers := pre ++ (findShadowLayerLoop f u rest (i + pre.length) nb' nbf').layers } := by
  intro pre
  induction pre with
  | nil =>
    intro rest i nb nbf _
    exact ⟨nb, nbf, by simp⟩
  | cons x pre ih =>
    intro rest i nb nbf hpre
    have hx := hpre x (List.mem_cons_self x pre)
    have hpre' : ∀ y ∈ pre, y.m_lightUuid ≠ u ∧ y.m_frameLastUsed ≠ kMaxU64 :=
      fun y hy => hpre y (List.mem_cons_of_mem x hy)
    have hlen : i + (x :: pre).length = i + 1 + pre.length := by
      simp only [List.length_cons]; omega
    rw [List.cons_append, findShadowLayerLoop, if_neg (fun h => hx.1 h.1),
      if_neg (fun h => h.elim hx.1 hx.2), hlen]
    by_cases hlt : x.m_frameLastUsed < nbf
    · rw [if_pos hlt]
      obtain ⟨nb', nbf', h⟩ := ih rest (i + 1) i f hpre'
      exact ⟨nb', nbf', by rw [h]; rfl⟩
    · rw [if_neg hlt]
      obtain ⟨nb', nbf', h⟩ := ih rest (i + 1) nb nbf hpre'
      exact ⟨nb', nbf', by rw [h]; rfl⟩

theorem findShadowLayer_hit (f u : Nat) (pre post : List ShadowLayer) (l : ShadowLayer)
    (hpre : ∀ x ∈ pre, x.m_lightUuid ≠ u ∧ x.m_frameLastUsed ≠ kMaxU64)
    (hl : l.m_lightUuid = u ∨ l.m_frameLastUsed = kMaxU64)
    (hlen : pre.length ≠ kMaxU32) :
    findShadowLayer (pre ++ l :: post) f u
      = ⟨true, pre.length,
          !decide (l.m_lightUuid = u ∧ l.m_frameLastUsed = prevFrame f),
          pre ++ ⟨u, f⟩ :: post⟩ := by
  obtain ⟨nb', nbf', h⟩ := findShadowLayerLoop_skip f u pre (l :: post) 0 kMaxU32 f hpre
  unfold findShadowLayer
  rw [h]
  simp only [Nat.zero_add]
  rw [findShadowLayerLoop]
  by_cases hc1 : l.m_lightUuid = u ∧ l.m_frameLastUsed = prevFrame f
  · rw [if_pos hc1]
    simp [hlen, hc1]
  · rw [if_neg hc1, if_pos hl]
    simp [hlen, hc1]

theorem findShadowLayer_miss (f u : Nat) (layers : List ShadowLayer)
    (hall : ∀ x ∈ layers, x.m_lightUuid ≠ u ∧ x.m_frameLastUsed ≠ kMaxU64) :
    (∃ nb, findShadowLayer layers f u = ⟨true, nb, true, layers.set nb ⟨u, f⟩⟩) ∨
    findShadowLayer layers f u = ⟨false, kMaxU32, false, layers⟩ := by
  obtain ⟨nb', nbf', h⟩ := findShadowLayerLoop_skip f u layers [] 0 kMaxU32 f hall
  rw [List.append_nil] at h
  unfold findShadowLayer
  rw [h]
  simp only [findShadowLayerLoop, List.append_nil]
  by_cases hnb : nb' = kMaxU32
  · right
    simp [hnb]
  · left
    exact ⟨nb', by simp [hnb]⟩

theorem findShadowLayerLoop_reject (f u : Nat) :
    ∀ (layers : List ShadowLayer) (i nb nbf : Nat),
      (∀ x ∈ layers, ¬ (x.m_lightUuid = u ∧ x.m_frameLastUsed = prevFrame f)) →
      (findShadowLayerLoop f u layers i nb nbf).rejectHistoryBuffer = true ∨
      (findShadowLayerLoop f u layers i nb nbf).layerIdx = kMaxU32 := by
  intro layers
  induction layers with
  | nil => intro i nb nbf _; right; rfl
  | cons x rest ih =>
    intro i nb nbf hall
    have hx := hall x (List.mem_cons_self x rest)
    have hrest : ∀ y ∈ rest, ¬ (y.m_lightUuid = u ∧ y.m_frameLastUsed = prevFrame f) :=
      fun y hy => hall y (List.mem_cons_of_mem x hy)
    rw [findShadowLayerLoop, if_neg hx]
    by_cases hc2 : x.m_lightUuid = u ∨ x.m_frameLastUsed = kMaxU64
    · rw [if_pos hc2]; left; rfl
    · rw [if_neg hc2]
      by_cases hlt : x.m_frameLastUsed < nbf
      · rw [if_pos hlt]; exact ih (i + 1) i f hrest
      · rw [if_neg hlt]; exact ih (i + 1) nb nbf hrest

theorem findShadowLayer_reject (f u : Nat) (layers : List ShadowLayer)
    (hall : ∀ x ∈ layers, ¬ (x.m_lightUuid = u ∧ x.m_frameLastUsed = prevFrame f))
    (hfound : (findShadowLayer layers f u).found = true) :
    (findShadowLayer layers f u).rejectHistoryBuffer = true := by
  have h := findShadowLayerLoop_reject f u layers 0 kMaxU32 f hall
  unfold findShadowLayer at hfound ⊢
  simp only at hfound ⊢
  by_cases hbranch : (findShadowLayerLoop f u layers 0 kMaxU32 f).layerIdx = kMaxU32 ∧
      (findShadowLayerLoop f u layers 0 kMaxU32 f).nextBestLayerIdx ≠ kMaxU32
  · rw [if_pos hbranch]
  · rw [if_neg hbranch] at hfound ⊢
    simp only [decide_eq_true_eq] at hfound
    rcases h with h | h
    · exact h
    · exact absurd h hfound

theorem shadowTableInv_step (n uuid0 : Nat) (hn : n < 2 ^ 32) (done : List ShadowLayerCall)
    (layers : List ShadowLayer) (c : ShadowLayerCall)
    (hinv : ShadowTableInv n uuid0 done layers) (hc : c.frame < kMaxU64) :
    ShadowTableInv n uuid0 (done ++ [c]) (findShadowLayer layers c.frame c.lightUuid).layers := by
  obtain ⟨hlen, used, m, rfl, hne, hnd, hH⟩ := hinv
  have hcne : c.frame ≠ kMaxU64 := Nat.ne_of_lt hc
  have hdone : ∀ l ∈ used,
      (⟨l.m_frameLastUsed, l.m_lightUuid⟩ : ShadowLayerCall) ∈ done ++ [c] :=
    fun l hl => List.mem_append_left _ (hH l hl)
  have hcmem : (⟨c.frame, c.lightUuid⟩ : ShadowLayerCall) ∈ done ++ [c] := by simp
  by_cases hu : c.lightUuid ∈ used.map (fun l => l.m_lightUuid)
  · obtain ⟨l, hl, hlu⟩ := List.mem_map.mp hu
    obtain ⟨pre, post, rfl⟩ := List.append_of_mem hl
    have hpre : ∀ x ∈ pre, x.m_lightUuid ≠ c.lightUuid ∧ x.m_frameLastUsed ≠ kMaxU64 := by
      intro x hx
      refine ⟨?_, hne x (List.mem_append_left _ hx)⟩
      intro hxu
      rw [List.map_append] at hnd
      exact (List.nodup_append.mp hnd).2.2
        (List.mem_map.mpr ⟨x, hx, rfl⟩)
        (List.mem_map.mpr ⟨l, List.mem_cons_self l post,
          show l.m_lightUuid = x.m_lightUuid by rw [hlu, hxu]⟩)
    have hprelen : pre.length ≠ kMaxU32 := by
      simp only [List.length_append, List.length_cons, List.length_replicate] at hlen
      unfold kMaxU32
      omega
    rw [List.append_assoc, List.cons_append,
      findShadowLayer_hit c.frame c.lightUuid pre
        (post ++ List.replicate m (⟨uuid0, kMaxU64⟩ : ShadowLayer)) l
        hpre (Or.inl hlu) hprelen]
    refine ⟨?_, pre ++ ⟨c.lightUuid, c.frame⟩ :: post, m, ?_, ?_, ?_, ?_⟩
    · simpa using hlen
    · simp
    · intro x hx
      rcases List.mem_append.mp hx with hx | hx
      · exact hne x (List.mem_append_left _ hx)
      · rcases List.mem_cons.mp hx with rfl | hx
        · exact hcne
        · exact hne x (List.mem_append_right _ (List.mem_cons_of_mem _ hx))
    · simpa [hlu] using hnd
    · intro x hx
      rcases List.mem_append.mp hx with hx | hx
      · exact hdone x (List.mem_append_left _ hx)
      · rcases List.mem_cons.mp hx with rfl | hx
        · exact hcmem
        · exact hdone x (List.mem_append_right _ (List.mem_cons_of_mem _ hx))
  · have hall : ∀ x ∈ used, x.m_lightUuid ≠ c.lightUuid ∧ x.m_frameLastUsed ≠ kMaxU64 :=
      fun x hx => ⟨fun hxu => hu (List.mem_map.mpr ⟨x, hx, hxu⟩), hne x hx⟩
    cases m with
    | zero =>
      simp only [List.replicate_zero, List.append_nil] at hlen ⊢
      rcases findShadowLayer_miss c.frame c.lightUuid used hall with ⟨nb, h⟩ | h
      · rw [h]
        refine ⟨by simpa using hlen, used.set nb ⟨c.lightUuid, c.frame⟩, 0, by simp, ?_, ?_, ?_⟩
        · intro x hx
          rcases List.mem_or_eq_of_mem_set hx with hx | rfl
          · exact hne x hx
          · exact hcne
        · rw [List.map_set]
          exact hnd.set hu
        · intro x hx
          rcases List.mem_or_eq_of_mem_set hx with hx | rfl
          · exact hdone x hx
          · exact hcmem
      · rw [h]
        exact ⟨hlen, used, 0, by simp, hne, hnd, hdone⟩
    | succ m =>
      have hprelen : used.length ≠ kMaxU32 := by
        simp only [List.length_append, List.length_replicate] at hlen
        unfold kMaxU32
        omega
      rw [List.replicate_succ,
        findShadowLayer_hit c.frame c.lightUuid used
          (List.replicate m (⟨uuid0, kMaxU64⟩ : ShadowLayer))
          (⟨uuid0, kMaxU64⟩ : ShadowLayer) hall (Or.inr rfl) hprelen]
      refine ⟨?_, used ++ [⟨c.lightUuid, c.frame⟩], m, by simp, ?_, ?_, ?_⟩
      · simpa [List.replicate_succ] using hlen
      · intro x hx
        rcases List.mem_append.mp hx with hx | hx
        · exact hne x hx
        · rw [List.mem_singleton.mp hx]
          exact hcne
      · rw [List.map_append, List.nodup_append]
        refine ⟨hnd, by simp, ?_⟩
        intro a ha ha'
        simp only [List.map_cons, List.map_nil, List.mem_singleton] at ha'
        exact hu (ha' ▸ ha)
      · intro x hx
        rcases List.mem_append.mp hx with hx | hx
        · exact hdone x hx
        · rw [List.mem_singleton.mp hx]
          exact hcmem

theorem shadowTableInv_run (n uuid0 : Nat) (hn : n < 2 ^ 32) :
    ∀ (calls done : List ShadowLayerCall) (layers : List ShadowLayer),
      ShadowTableInv n uuid0 done layers → (∀ c ∈ calls, c.frame < kMaxU64) →
      ShadowTableInv n uuid0 (done ++ calls) (runShadowLayerCalls layers calls) := by
  intro calls
  induction calls with
  | nil => intro done layers hinv _; simpa [runShadowLayerCalls] using hinv
  | cons c calls ih =>
    intro done layers hinv hframes
    have hstep := shadowTableInv_step n uuid0 hn done layers c hinv
      (hframes c (List.mem_cons_self c calls))
    have := ih (done ++ [c]) _ hstep (fun d hd => hframes d (List.mem_cons_of_mem c hd))
    simpa [runShadowLayerCalls] using this

theorem shadowTableInv_empty (n uuid0 : Nat) :
    ShadowTableInv n uuid0 [] (emptyShadowLayers n uuid0) :=
  ⟨by simp [emptyShadowLayers], [], n, by simp [emptyShadowLayers], by simp, by simp, by simp⟩

theorem getElem?_append_cons_length {α : Type} (pre rest : List α) (a : α) :
    (pre ++ a :: rest)[pre.length]? = some a := by
  rw [List.getElem?_append_right (Nat.le_refl _)]
  simp

theorem prevFrame_ne_kMaxU64 (f : Nat) (h0 : 0 < f) (hf : f < kMaxU64) :
    prevFrame f ≠ kMaxU64 := by
  unfold prevFrame kMaxU64 at *
  omega

theorem prevFrame_eq_kMaxU64 (f : Nat) (hf : f < kMaxU64) (h : kMaxU64 = prevFrame f) :
    f = 0 := by
  unfold prevFrame kMaxU64 at *
  omega

/-- C18 (as amended): let the table `layers` be reached from the all-empty table of `n` layers
by the calls `calls`, and let `c` be the next call, the frame numbers of all these calls being
below `kMaxU64` and not decreasing, with at most one call per light and frame. If some layer
records the light of `c` with `m_frameLastUsed == crntFrame - 1`, `findShadowLayer` returns
`true`, the index of such a layer (of that very layer when `crntFrame > 0`, where there is only
one) and `rejectHistoryBuffer = false`; in every other case where it returns `true`,
`rejectHistoryBuffer = true`. -/
theorem findShadowLayer_history (n uuid0 : Nat) (calls : List ShadowLayerCall)
    (c : ShadowLayerCall) (layers : List ShadowLayer)
    (hn : n < 2 ^ 32)
    (hlayers : layers = runShadowLayerCalls (emptyShadowLayers n uuid0) calls)
    (horder : NonDecreasingOncePerFrame (calls ++ [c]))
    (hframes : ∀ d ∈ calls ++ [c], d.frame < kMaxU64) :
    ((∃ l ∈ layers, recordsPrevFrame c l) →
      (findShadowLayer layers c.frame c.lightUuid).found = true ∧
      (findShadowLayer layers c.frame c.lightUuid).rejectHistoryBuffer = false ∧
      (∃ l, layers[(findShadowLayer layers c.frame c.lightUuid).layerIdx]? = some l ∧
        recordsPrevFrame c l) ∧
      (0 < c.frame → ∀ (idx : Nat) (l : ShadowLayer), layers[idx]? = some l →
        recordsPrevFrame c l → (findShadowLayer layers c.frame c.lightUuid).layerIdx = idx)) ∧
    ((¬ ∃ l ∈ layers, recordsPrevFrame c l) →
      (findShadowLayer layers c.frame c.lightUuid).found = true →
      (findShadowLayer layers c.frame c.lightUuid).rejectHistoryBuffer = true) := by
  have hcf : c.frame < kMaxU64 := hframes c (by simp)
  have hinv := shadowTableInv_run n uuid0 hn calls [] _ (shadowTableInv_empty n uuid0)
    (fun d hd => hframes d (List.mem_append_left _ hd))
  rw [List.nil_append, ← hlayers] at hinv
  obtain ⟨hlen, used, m, hTeq, hne, hnd, hH⟩ := hinv
  have hle : ∀ d ∈ calls, d.frame ≤ c.frame := by
    intro d hd
    exact (List.pairwise_append.mp horder.1).2.2 d hd c (List.mem_singleton.mpr rfl)
  have hnew : c ∉ calls := by
    intro hmem
    exact (List.nodup_append.mp horder.2).2.2 hmem (List.mem_singleton.mpr rfl)
  constructor
  · rintro ⟨l, hl, hrec⟩
    subst hTeq
    rcases List.mem_append.mp hl with hlu | hle'
    · -- the layer is a used one
      obtain ⟨pre, post, rfl⟩ := List.append_of_mem hlu
      have hpre : ∀ x ∈ pre, x.m_lightUuid ≠ c.lightUuid ∧ x.m_frameLastUsed ≠ kMaxU64 := by
        intro x hx
        refine ⟨?_, hne x (List.mem_append_left _ hx)⟩
        intro hxu
        rw [List.map_append] at hnd
        exact (List.nodup_append.mp hnd).2.2
          (List.mem_map.mpr ⟨x, hx, rfl⟩)
          (List.mem_map.mpr ⟨l, List.mem_cons_self l post,
            show l.m_lightUuid = x.m_lightUuid by rw [hrec.1, hxu]⟩)
      have hprelen : pre.length ≠ kMaxU32 := by
        simp only [List.length_append, List.length_cons, List.length_replicate] at hlen
        unfold kMaxU32
        omega
      have hrec' : l.m_lightUuid = c.lightUuid ∧ l.m_frameLastUsed = prevFrame c.frame := hrec
      rw [List.append_assoc, List.cons_append,
        findShadowLayer_hit c.frame c.lightUuid pre
          (post ++ List.replicate m (⟨uuid0, kMaxU64⟩ : ShadowLayer)) l
          hpre (Or.inl hrec.1) hprelen]
      refine ⟨rfl, by simp [hrec'], ⟨l, getElem?_append_cons_length _ _ _, hrec⟩, ?_⟩
      intro h0 idx l' hidx hrec2
      simp only
      have hl'ne : l'.m_frameLastUsed ≠ kMaxU64 := by
        rw [hrec2.2]
        exact prevFrame_ne_kMaxU64 c.frame h0 hcf
      have hidxlt : idx < (pre ++ l :: post).length := by
        by_contra hge
        rw [← List.cons_append, ← List.append_assoc,
          List.getElem?_append_right (by omega)] at hidx
        have := List.eq_of_mem_replicate (List.getElem?_mem hidx)
        exact hl'ne (by rw [this])
      rw [← List.cons_append, ← List.append_assoc, List.getElem?_append_left hidxlt] at hidx
      have h1 : (List.map (fun l => l.m_lightUuid) (pre ++ l :: post))[idx]?
          = some c.lightUuid := by
        rw [List.getElem?_map, hidx]
        simp [hrec2.1]
      have h2 : (List.map (fun l => l.m_lightUuid) (pre ++ l :: post))[pre.length]?
          = some c.lightUuid := by
        rw [List.getElem?_map, getElem?_append_cons_length]
        simp [hrec.1]
      have hnd' := List.nodup_iff_getElem?_ne_getElem?.mp hnd
      have hplt : pre.length < (List.map (fun l => l.m_lightUuid) (pre ++ l :: post)).length := by
        simp
      have hilt : idx < (List.map (fun l => l.m_lightUuid) (pre ++ l :: post)).length := by
        simpa using hidxlt
      rcases Nat.lt_trichotomy pre.length idx with hlt | heq | hgt
      · exact absurd (h2.trans h1.symm) (hnd' _ _ hlt hilt)
      · exact heq
      · exact absurd (h1.trans h2.symm) (hnd' _ _ hgt hplt)
    · -- the layer is one that was never used: this is frame 0
      have hl0 : l = ⟨uuid0, kMaxU64⟩ := List.eq_of_mem_replicate hle'
      have hrec' : l.m_lightUuid = c.lightUuid ∧ l.m_frameLastUsed = prevFrame c.frame := hrec
      rw [hl0] at hrec'
      have hf0 : c.frame = 0 := prevFrame_eq_kMaxU64 c.frame hcf hrec'.2
      have hall : ∀ x ∈ used, x.m_lightUuid ≠ c.lightUuid ∧ x.m_frameLastUsed ≠ kMaxU64 := by
        intro x hx
        refine ⟨?_, hne x hx⟩
        intro hxu
        have hx1 := hH x hx
        have hx2 := hle _ hx1
        simp only [hf0] at hx2
        have hx3 : x.m_frameLastUsed = c.frame := by omega
        rw [hx3, hxu] at hx1
        exact hnew hx1
      cases m with
      | zero => simp at hle'
      | succ m =>
        have hprelen : used.length ≠ kMaxU32 := by
          simp only [List.length_append, List.length_replicate] at hlen
          unfold kMaxU32
          omega
        rw [List.replicate_succ,
          findShadowLayer_hit c.frame c.lightUuid used
            (List.replicate m (⟨uuid0, kMaxU64⟩ : ShadowLayer))
            (⟨uuid0, kMaxU64⟩ : ShadowLayer) hall (Or.inr rfl) hprelen]
        refine ⟨rfl, by simpa using hrec', ⟨⟨uuid0, kMaxU64⟩, getElem?_append_cons_length _ _ _, hrec'⟩, ?_⟩
        intro h0
        omega
  · intro hnone hfound
    exact findShadowLayer_reject c.frame c.lightUuid layers
      (fun x hx hc1 => hnone ⟨x, hx, hc1⟩) hfound

/-- Witness for C18 (as amended): an eight layer table after lights 1 and 2 were given layers
in frame 4; in frame 5 light 2 is found in layer 1 and keeps its history. -/
theorem findShadowLayer_history_witness :
    (findShadowLayer [⟨1, 4⟩, ⟨2, 4⟩, ⟨7, kMaxU64⟩, ⟨7, kMaxU64⟩, ⟨7, kMaxU64⟩, ⟨7, kMaxU64⟩,
      ⟨7, kMaxU64⟩, ⟨7, kMaxU64⟩] 5 2).found = true ∧
    (findShadowLayer [⟨1, 4⟩, ⟨2, 4⟩, ⟨7, kMaxU64⟩, ⟨7, kMaxU64⟩, ⟨7, kMaxU64⟩, ⟨7, kMaxU64⟩,
      ⟨7, kMaxU64⟩, ⟨7, kMaxU64⟩] 5 2).rejectHistoryBuffer = false ∧
    (findShadowLayer [⟨1, 4⟩, ⟨2, 4⟩, ⟨7, kMaxU64⟩, ⟨7, kMaxU64⟩, ⟨7, kMaxU64⟩, ⟨7, kMaxU64⟩,
      ⟨7, kMaxU64⟩, ⟨7, kMaxU64⟩] 5 2).layerIdx = 1 :=
  have h := (findShadowLayer_history 8 7 [⟨4, 1⟩, ⟨4, 2⟩] ⟨5, 2⟩
    [⟨1, 4⟩, ⟨2, 4⟩, ⟨7, kMaxU64⟩, ⟨7, kMaxU64⟩, ⟨7, kMaxU64⟩, ⟨7, kMaxU64⟩,
      ⟨7, kMaxU64⟩, ⟨7, kMaxU64⟩]
    (by decide) (by decide) (by unfold NonDecreasingOncePerFrame; decide) (by decide)).1
    ⟨⟨2, 4⟩, by decide, by decide⟩
  ⟨h.1, h.2.1, h.2.2.2 (by decide) 1 ⟨2, 4⟩ (by decide) (by decide)⟩

end AnKi
